import Mathlib

/-!
Verification development for the `werk` build system front-end:
a shallow embedding of the `werk-parser` grammar parser
(src/werk-parser/parser.rs, src/werk-parser/error.rs) and of the
terminal progress watcher (src/werk-cli/watcher.rs,
src/werk-cli/watcher/ansi.rs), together with theorems settling the
specification claims about them.

Conventions of the embedding:
* Source text is a `List Char`; offsets are character indices.  All inputs
  appearing in the theorems are ASCII, where character indices coincide with
  the byte offsets used by the Rust code.
* A winnow parser `fn(&mut Located<&str>) -> PResult<T>` becomes a function
  `Src → Nat → PRes T`: given the source and the current offset it returns
  either `.ok value nextOffset` or `.fail cut error pos`, where `cut`
  distinguishes `ErrMode::Cut` from `ErrMode::Backtrack` and `pos` is the
  offset at which the input rests when the error propagates (winnow's
  top-level `Parser::parse` reads the final error offset from there).
* Loops (`repeat`, the statement/list loops) take an explicit fuel argument
  so that every definition is structurally recursive and kernel-computable;
  the fuel used by the top-level entry points is large enough for any input,
  and the general theorems quantify over the fuel.
-/

namespace Werk

/-- Byte span `[start, stop)` into the source (src/werk-parser/parser.rs uses
`span(start..end)`; the `Span` type itself is modelled from the spec §3.1:
`merge(a,b) = [min(starts), max(ends))`). -/
structure Span where
  start : Nat
  stop : Nat
deriving DecidableEq, Repr

instance : Inhabited Span := ⟨⟨0, 0⟩⟩

/-- Modelled from the spec §3.1: `merge(a,b) = [min(starts), max(ends))`
(the span primitives live in src/werk-parser/parser/span.rs, which is not
under src/). -/
def Span.merge (a b : Span) : Span :=
  ⟨min a.start b.start, max a.stop b.stop⟩

def Span.isEmpty (a : Span) : Bool :=
  a.stop ≤ a.start

/-- `ast::Whitespace` holds just the span of a whitespace/comment run. -/
abbrev Whitespace := Span

/-- Source text as a list of characters. -/
abbrev Src := List Char

/-- `Expected` payloads of parse errors (src/werk-parser/error.rs).  The
`Internal` case carries winnow's `ErrorKind` as a string. -/
inductive Expected where
  | internal (kind : String)
  | expected (label : String)
  | expectedChar (c : Char)
  | description (text : String) (sp : Span)
deriving DecidableEq, Repr

/-- `ContextError` (src/werk-parser/error.rs): a context stack plus the
structured `Expected` payload. -/
structure ContextError where
  stack : List String
  expected : Expected
deriving DecidableEq, Repr

/-- Result of running a parser at an offset.  `fail cut err pos`: `cut`
states whether the error is a winnow `ErrMode::Cut`, `pos` is the input
offset at which the error propagates. -/
inductive PRes (α : Type) where
  | ok (val : α) (next : Nat)
  | fail (cut : Bool) (err : ContextError) (pos : Nat)
deriving Repr

abbrev WParser (α : Type) := Src → Nat → PRes α

def perr (e : Expected) : ContextError := ⟨[], e⟩

/-- Error issued when the fuel of a loop runs out (never reached by the
entry points, whose fuel exceeds the input length). -/
def fuelErr : ContextError := perr (.internal "fuel")

def pmap (f : α → β) (p : WParser α) : WParser β := fun s i =>
  match p s i with
  | .ok v n => .ok (f v) n
  | .fail c e q => .fail c e q

/-- `alt` between two branches: backtrack errors of the first branch restart
the second branch at the original offset; cut errors propagate. -/
def porelse (p q : WParser α) : WParser α := fun s i =>
  match p s i with
  | .ok v n => .ok v n
  | .fail true e q' => .fail true e q'
  | .fail false _ _ => q s i

/-- `cut_err`: turns a backtrack error into a cut error. -/
def pcut (p : WParser α) : WParser α := fun s i =>
  match p s i with
  | .fail false e q => .fail true e q
  | r => r

/-- `.context(Expected::Expected(label))`: on failure, replaces the
`expected` payload (keeping the stack), as `AddContext<Expected>` does. -/
def pctx (label : String) (p : WParser α) : WParser α := fun s i =>
  match p s i with
  | .fail c e q => .fail c ⟨e.stack, .expected label⟩ q
  | r => r

/-- `.context("...")` with a plain string: pushes onto the context stack, as
`AddContext<&str>` does. -/
def pctxStack (entry : String) (p : WParser α) : WParser α := fun s i =>
  match p s i with
  | .fail c e q => .fail c ⟨entry :: e.stack, e.expected⟩ q
  | r => r

/-- `opt`: backtrack errors become `none` at the original offset; cut errors
propagate. -/
def popt (p : WParser α) : WParser (Option α) := fun s i =>
  match p s i with
  | .ok v n => .ok (some v) n
  | .fail true e q => .fail true e q
  | .fail false _ _ => .ok none i

/-- `peek`: parses without consuming; winnow's `peek` resets the input in
both the success and the failure case. -/
def ppeek (p : WParser α) : WParser α := fun s i =>
  match p s i with
  | .ok v _ => .ok v i
  | .fail c e _ => .fail c e i

/-- `.with_token_span()`: pairs the result with the consumed span. -/
def withTokenSpan (p : WParser α) : WParser (α × Span) := fun s i =>
  match p s i with
  | .ok v n => .ok (v, ⟨i, n⟩) n
  | .fail c e q => .fail c e q

/-- `.token_span()`: returns just the consumed span. -/
def tokenSpan (p : WParser α) : WParser Span := fun s i =>
  match p s i with
  | .ok _ n => .ok (⟨i, n⟩ : Span) n
  | .fail c e q => .fail c e q

/-- Single-character token parser (`token::<CHAR>` /
`CHAR.token_span().map(Token::with_span)`); tokens are modelled by their
spans. -/
def tokenCharP (c : Char) : WParser Span := fun s i =>
  match s.get? i with
  | some c' =>
    if c' = c then .ok ⟨i, i + 1⟩ (i + 1)
    else .fail false (perr (.internal "Tag")) i
  | none => .fail false (perr (.internal "Tag")) i

/-- Does `kw` occur in `s` starting at offset `i`? -/
def matchesAt (s : Src) (i : Nat) (kw : String) : Bool :=
  kw.data.isPrefixOf (s.drop i)

/-- The substring `[i, j)` of the source. -/
def sliceStr (s : Src) (i j : Nat) : String :=
  String.mk ((s.drop i).take (j - i))

/-- First offset `≥ i` holding `c`, if any. -/
def findChar (s : Src) (i : Nat) (c : Char) : Option Nat :=
  ((s.drop i).findIdx? (fun x => x = c)).map (i + ·)

/-! ### Whitespace and comments (`whitespace_parsed`, `until_eol_or_eof`) -/

/-- Offset just after the body of a line comment starting at `i` (the parser
`until_eol_or_eof`): consume up to and including the next line ending; when
the input ends without one, or holds a lone `'\r'` (on which winnow's
`till_line_ending` backtracks), the `input.finish()` fallback consumes the
whole rest. -/
def untilEolStop (s : Src) (i : Nat) : Nat :=
  match (s.drop i).findIdx? (fun c => c = '\r' ∨ c = '\n') with
  | none => s.length
  | some k =>
    let j := i + k
    if s.get? j = some '\n' then j + 1
    else if s.get? (j + 1) = some '\n' then j + 2
    else s.length

/-- `ParsedWhitespace` (src/werk-parser/parser.rs): the span of a
whitespace/comment run plus the two classification flags. -/
structure ParsedWhitespace where
  span : Span
  hasNewlines : Bool
  hasComments : Bool
deriving DecidableEq, Repr

def ParsedWhitespace.intoWhitespace (w : ParsedWhitespace) : Whitespace :=
  w.span

def ParsedWhitespace.isStatementSeparator (w : ParsedWhitespace) : Bool :=
  w.hasNewlines || w.hasComments

/-- The `repeat(0.., ws_part)` fold of `whitespace_parsed`: scan comment /
whitespace / newline parts, tracking `(has_newlines, has_comments)`. -/
def wsScan (s : Src) : Nat → Nat → Bool → Bool → Nat × Bool × Bool
  | 0, i, hn, hc => (i, hn, hc)
  | fuel + 1, i, hn, hc =>
    match s.get? i with
    | some '#' => wsScan s fuel (untilEolStop s (i + 1)) hn true
    | some ' ' => wsScan s fuel (i + 1) hn hc
    | some '\t' => wsScan s fuel (i + 1) hn hc
    | some '\r' => wsScan s fuel (i + 1) hn hc
    | some '\n' => wsScan s fuel (i + 1) true hc
    | _ => (i, hn, hc)

/-- `whitespace_parsed` as a total function of the offset (it always
succeeds); the internal fuel `s.length + 1 - i` suffices because every part
consumes at least one character. -/
def whitespaceParsedAt (s : Src) (i : Nat) : ParsedWhitespace :=
  let r := wsScan s (s.length + 1 - i) i false false
  ⟨⟨i, r.1⟩, r.2.1, r.2.2⟩

def whitespaceParsedP : WParser ParsedWhitespace := fun s i =>
  let w := whitespaceParsedAt s i
  .ok w w.span.stop

/-- `whitespace`: `whitespace_parsed` mapped to its span. -/
def whitespaceP : WParser Whitespace :=
  pmap ParsedWhitespace.intoWhitespace whitespaceParsedP

/-- `whitespace_parsed_nonempty` / `whitespace_nonempty` (the `verify`
failure resets the input, so the error position is the start offset). -/
def whitespaceNonemptyP : WParser Whitespace := fun s i =>
  let w := whitespaceParsedAt s i
  if w.span.isEmpty then .fail false (perr (.internal "Verify")) i
  else .ok w.span w.span.stop

/-! ### Identifiers and keywords -/

/-- ASCII model of `unicode_ident::is_xid_start` (all identifiers appearing
in the claims are ASCII). -/
def isXidStart (c : Char) : Bool := c.isAlpha

/-- ASCII model of `ch == '-' || unicode_ident::is_xid_continue(ch)`
(kebab-case continuation, src/werk-parser/parser.rs `identifier_literal`). -/
def isXidContinue (c : Char) : Bool :=
  c = '-' || c = '_' || c.isAlphanum

/-- The reserved words rejected by `identifier_literal`
(`const KEYWORDS: &[&str] = &["let"]`). -/
def reservedWords : List String := ["let"]

/-- `identifier_literal`: one XID-start character, then XID-continue
characters (kebab-case), with the whole match rejected when it is a reserved
word.  Failure of the leading characters carries the
`Expected::Expected("identifier")` context; the `verify` rejection is an
internal `Verify` error at the start offset. -/
def identifierLiteral : WParser String := fun s i =>
  match s.get? i with
  | some c =>
    if isXidStart c then
      if reservedWords.contains
          (sliceStr s i (i + 1 + ((s.drop (i + 1)).takeWhile isXidContinue).length)) then
        .fail false (perr (.internal "Verify")) i
      else
        .ok (sliceStr s i (i + 1 + ((s.drop (i + 1)).takeWhile isXidContinue).length))
          (i + 1 + ((s.drop (i + 1)).takeWhile isXidContinue).length)
    else .fail false (perr (.expected "identifier")) i
  | none => .fail false (perr (.expected "identifier")) i

/-- `identifier`: `identifier_literal` with its token span. -/
structure Ident where
  span : Span
  ident : String
deriving DecidableEq, Repr

def identifierP : WParser Ident := fun s i =>
  match withTokenSpan identifierLiteral s i with
  | .ok (name, sp) n => .ok ⟨sp, name⟩ n
  | .fail c e q => .fail c e q

/-- `keyword::<T>`: the keyword text followed by a peeked non-alphanumeric
character or end of input (`terminated(T::TOKEN, peek(end_of_keyword))`).
Tokens are modelled by their spans. -/
def keywordP (kw : String) : WParser Span := fun s i =>
  if matchesAt s i kw then
    match s.get? (i + kw.length) with
    | none => .ok ⟨i, i + kw.length⟩ (i + kw.length)
    | some c =>
      if c.isAlphanum then .fail false (perr (.internal "Verify")) (i + kw.length)
      else .ok ⟨i, i + kw.length⟩ (i + kw.length)
  else .fail false (perr (.internal "Tag")) i

/-- `then_arrow`: the literal `=>` without the keyword lookahead. -/
def thenArrowP : WParser Span := fun s i =>
  if matchesAt s i "=>" then .ok ⟨i, i + 2⟩ (i + 2)
  else .fail false (perr (.internal "Tag")) i

/-- `peek(eof)` (the terminal of the root statement list). -/
def peekEofP : WParser Unit := fun s i =>
  if i = s.length then .ok () i
  else .fail false (perr (.internal "Eof")) i

/-! ### String and pattern expressions -/

/-- Interpolation stem (spec §3.3: identifier, capture-group index, or
implicit). -/
inductive InterpStem where
  | ident (name : String)
  | captureGroup (index : Nat)
  | implicit
deriving DecidableEq, Repr

/-- Modelled from the spec: the interpolation payload of
`parse_string.rs` (not under src/).  §3.3: a stem plus optional
operations; the operations are kept as the raw text following the stem. -/
structure Interpolation where
  stem : InterpStem
  options : Option String
deriving DecidableEq, Repr

/-- AST string/pattern fragments after canonicalization (escape sequences
are folded into literals, as the `string_escape` test in
src/werk-parser/parser.rs shows; `PatternStem` and `OneOf` only occur in
patterns). -/
inductive AstFragment where
  | literal (text : String)
  | interpolation (it : Interpolation)
  | patternStem
  | oneOf (alts : List String)
deriving DecidableEq, Repr

/-- Parse-time string fragments (`StringFragment` in `parse_string.rs`,
as consumed by `string_fragment` / `pattern_fragment`). -/
inductive PFrag where
  | literal (text : String)
  | escapedChar (c : Char)
  | escapedWhitespace
  | interpolation (it : Interpolation)
  | patternStem
  | oneOf (alts : List String)
deriving DecidableEq, Repr

/-- Modelled from the spec §4.2: `push_*_fragment` canonicalization —
appending a literal to a sequence ending in a literal merges them, and an
empty literal never appears (behaviour fixed by the `string_escape` test in
src/werk-parser/parser.rs). -/
def pushLit (fs : List AstFragment) (x : String) : List AstFragment :=
  if x = "" then fs
  else
    match fs.reverse with
    | .literal y :: rest => (AstFragment.literal (y ++ x) :: rest).reverse
    | _ => fs ++ [.literal x]

/-- Modelled from the spec §4.2: fold one parsed fragment into the
canonical fragment sequence (escaped characters extend the current literal,
escaped whitespace is a line continuation). -/
def pushFragment (fs : List AstFragment) : PFrag → List AstFragment
  | .literal x => pushLit fs x
  | .escapedChar c => pushLit fs (String.mk [c])
  | .escapedWhitespace => fs
  | .interpolation it => fs ++ [.interpolation it]
  | .patternStem => fs ++ [.patternStem]
  | .oneOf alts => fs ++ [.oneOf alts]

/-- `ast::StringExpr`. -/
structure StringExpr where
  span : Span
  fragments : List AstFragment
deriving DecidableEq, Repr

/-- `ast::PatternExpr` (same shape; stems and one-of groups allowed). -/
structure PatternExpr where
  span : Span
  fragments : List AstFragment
deriving DecidableEq, Repr

/-- `string_literal_fragment::<IS_PATTERN>`: `take_till(1.., special)`. -/
def stringLiteralFragment (isPattern : Bool) : WParser String := fun s i =>
  let special : List Char :=
    if isPattern then ['"', '\\', '{', '}', '<', '>', '(', ')', '%']
    else ['"', '\\', '{', '}', '<', '>']
  let cnt := ((s.drop i).takeWhile (fun c => !special.contains c)).length
  if cnt = 0 then .fail false (perr (.internal "Slice")) i
  else .ok (sliceStr s i (i + cnt)) (i + cnt)

/-- `escaped_char`: a backslash followed by one of the recognized escape
characters; any other escaped character fails (backtrack) with
`Expected::Expected("valid escape sequence")`, the input resting after the
two consumed characters. -/
def escapedCharP : WParser Char := fun s i =>
  match s.get? i with
  | some '\\' =>
    match s.get? (i + 1) with
    | some c =>
      let out : Option Char :=
        if c = '\\' then some '\\'
        else if c = '{' then some '{'
        else if c = '}' then some '}'
        else if c = '<' then some '<'
        else if c = '>' then some '>'
        else if c = '%' then some '%'
        else if c = '(' then some '('
        else if c = ')' then some ')'
        else if c = '"' then some '"'
        else if c = 'n' then some '\n'
        else if c = 'r' then some '\r'
        else if c = 't' then some '\t'
        else if c = '0' then some (Char.ofNat 0)
        else none
      match out with
      | some v => .ok v (i + 2)
      | none => .fail false (perr (.expected "valid escape sequence")) (i + 2)
    | none => .fail false (perr (.internal "Token")) (i + 1)
  | _ => .fail false (perr (.internal "Tag")) i

def isMultispace (c : Char) : Bool :=
  c = ' ' || c = '\t' || c = '\r' || c = '\n'

/-- `escaped_whitespace`: `preceded('\\', multispace1)`. -/
def escapedWhitespaceP : WParser String := fun s i =>
  match s.get? i with
  | some '\\' =>
    let cnt := ((s.drop (i + 1)).takeWhile isMultispace).length
    if cnt = 0 then .fail false (perr (.internal "Slice")) (i + 1)
    else .ok (sliceStr s (i + 1) (i + 1 + cnt)) (i + 1 + cnt)
  | _ => .fail false (perr (.internal "Tag")) i

/-- Modelled from the spec: parse the inside of a `{…}` / `<…>`
interpolation (parse_string.rs is not under src/).  The stem is the run up
to the first `:`; all digits make a capture-group index, an empty run the
implicit stem, anything else an identifier stem; the remaining text is kept
raw as the options. -/
def parseStem (inner : List Char) : Interpolation :=
  let stemChars := inner.takeWhile (fun c => c ≠ ':')
  let rest := inner.drop stemChars.length
  let options : Option String :=
    match rest with
    | [] => none
    | ':' :: ops => some (String.mk ops)
    | _ => some (String.mk rest)
  let stem : InterpStem :=
    if stemChars = [] then .implicit
    else if stemChars.all Char.isDigit then
      .captureGroup (String.mk stemChars).toNat!
    else .ident (String.mk stemChars)
  ⟨stem, options⟩

/-- Modelled from the spec: `string_interpolation` — `{stem(ops)?}`. -/
def stringInterpolationP : WParser Interpolation := fun s i =>
  if s.get? i = some '{' then
    match findChar s (i + 1) '}' with
    | none => .fail false (perr (.expected "interpolation")) i
    | some j => .ok (parseStem ((s.drop (i + 1)).take (j - (i + 1)))) (j + 1)
  else .fail false (perr (.internal "Tag")) i

/-- Modelled from the spec: `path_interpolation` — `<stem(ops)?>`. -/
def pathInterpolationP : WParser Interpolation := fun s i =>
  if s.get? i = some '<' then
    match findChar s (i + 1) '>' with
    | none => .fail false (perr (.expected "interpolation")) i
    | some j => .ok (parseStem ((s.drop (i + 1)).take (j - (i + 1)))) (j + 1)
  else .fail false (perr (.internal "Tag")) i

/-- Split a character list at `|` separators. -/
def splitBar : List Char → List String
  | [] => [""]
  | '|' :: rest => "" :: splitBar rest
  | c :: rest =>
    match splitBar rest with
    | [] => [String.mk [c]]
    | x :: xs => (String.mk [c] ++ x) :: xs

/-- Modelled from the spec: `pattern_one_of` — a `(a|b|c)` alternation group
in a pattern literal. -/
def patternOneOfP : WParser (List String) := fun s i =>
  if s.get? i = some '(' then
    match findChar s (i + 1) ')' with
    | none => .fail false (perr (.expected "one-of pattern")) i
    | some j => .ok (splitBar ((s.drop (i + 1)).take (j - (i + 1)))) (j + 1)
  else .fail false (perr (.internal "Tag")) i

/-- `string_fragment`. -/
def stringFragmentP : WParser PFrag :=
  pctxStack "string fragment"
    (porelse (pmap PFrag.literal (stringLiteralFragment false))
      (porelse (pmap PFrag.escapedChar escapedCharP)
        (porelse (pmap (fun _ => PFrag.escapedWhitespace) escapedWhitespaceP)
          (porelse (pmap PFrag.interpolation stringInterpolationP)
            (pmap PFrag.interpolation pathInterpolationP)))))

/-- `pattern_fragment`. -/
def patternFragmentP : WParser PFrag :=
  pctxStack "pattern fragment"
    (porelse (pmap (fun _ => PFrag.patternStem) (tokenCharP '%'))
      (porelse (pmap PFrag.oneOf patternOneOfP)
        (porelse (pmap PFrag.literal (stringLiteralFragment true))
          (porelse (pmap PFrag.escapedChar escapedCharP)
            (porelse (pmap (fun _ => PFrag.escapedWhitespace) escapedWhitespaceP)
              (porelse (pmap PFrag.interpolation stringInterpolationP)
                (pmap PFrag.interpolation pathInterpolationP)))))))

/-- The `repeat(0.., fragment).fold(default, push)` loop of
`string_expr_inside_quotes` / `pattern_expr_inside_quotes`. -/
def fragLoop (frag : WParser PFrag) (s : Src) :
    Nat → Nat → List AstFragment → PRes (List AstFragment)
  | 0, i, _ => .fail false fuelErr i
  | fuel + 1, i, acc =>
    match frag s i with
    | .ok fr n => fragLoop frag s fuel n (pushFragment acc fr)
    | .fail true e p => .fail true e p
    | .fail false _ _ => .ok acc i

/-- `string_expr`: `delimited('"', inside, cut_err('"'))`, the final span
covering the quotes. -/
def stringExprP : WParser StringExpr := fun s i =>
  match tokenCharP '"' s i with
  | .fail c e q => .fail c e q
  | .ok _ n =>
    match fragLoop stringFragmentP s (s.length + 1 - n) n [] with
    | .fail c e q => .fail c e q
    | .ok frs m =>
      match pcut (tokenCharP '"') s m with
      | .fail c e q => .fail c e q
      | .ok _ m2 => .ok ⟨⟨i, m2⟩, frs⟩ m2

/-- `pattern_expr`. -/
def patternExprP : WParser PatternExpr := fun s i =>
  match tokenCharP '"' s i with
  | .fail c e q => .fail c e q
  | .ok _ n =>
    match fragLoop patternFragmentP s (s.length + 1 - n) n [] with
    | .fail c e q => .fail c e q
    | .ok frs m =>
      match pcut (tokenCharP '"') s m with
      | .fail c e q => .fail c e q
      | .ok _ m2 => .ok ⟨⟨i, m2⟩, frs⟩ m2

/-- The content scanner of `escaped_string`
(`repeat(0.., escaped_string_char)`): stop before `'"'`, at end of input, or
at a backslash not followed by a character. -/
def escScan (s : Src) : Nat → Nat → Nat
  | 0, i => i
  | fuel + 1, i =>
    match s.get? i with
    | none => i
    | some '"' => i
    | some '\\' =>
      match s.get? (i + 1) with
      | none => i
      | some _ => escScan s fuel (i + 2)
    | some _ => escScan s fuel (i + 1)

/-- `escaped_string` (the raw string used by `config_value`): quoted text
with backslash escapes kept verbatim, the whole parser carrying the
`Expected::Expected("string literal")` context. -/
def escapedStringP : WParser String := fun s i =>
  match tokenCharP '"' s i with
  | .fail _ _ q => .fail false (perr (.expected "string literal")) q
  | .ok _ n =>
    let m := escScan s (s.length + 1 - n) n
    match tokenCharP '"' s m with
    | .fail _ _ q => .fail false (perr (.expected "string literal")) q
    | .ok _ m2 => .ok (sliceStr s n m) m2

/-! ### Grammar AST (`ast` module; shapes as constructed by
src/werk-parser/parser.rs, tokens modelled by their spans) -/

/-- `ast::ConfigValue`. -/
inductive ConfigValue where
  | string (s : String)
  | bool (b : Bool)
deriving DecidableEq, Repr

def ConfigValue.isBool : ConfigValue → Bool
  | .bool _ => true
  | _ => false

def ConfigValue.isString : ConfigValue → Bool
  | .string _ => true
  | _ => false

/-- `ast::ConfigStmt`. -/
structure ConfigStmt where
  span : Span
  tokenConfig : Span
  ws1 : Whitespace
  ident : Ident
  ws2 : Whitespace
  tokenEq : Span
  ws3 : Whitespace
  value : ConfigValue
deriving DecidableEq, Repr

/-- `ast::KwExpr<T, StringExpr>` (shell/glob/which/join/env/info/warn/error
expressions). -/
structure KwStringExpr where
  span : Span
  token : Span
  ws1 : Whitespace
  param : StringExpr
deriving DecidableEq, Repr

/-- `ast::BodyStmt<T>`: a statement with its preceding whitespace and the
optional trailing whitespace-plus-semicolon. -/
structure BodyStmtG (α : Type) where
  wsPre : Whitespace
  statement : α
  wsTrailing : Option (Whitespace × Span)
deriving DecidableEq, Repr

/-- `ast::Body<T>` (a braced statement list). -/
structure BodyG (α : Type) where
  tokenOpen : Span
  statements : List (BodyStmtG α)
  wsTrailing : Whitespace
  tokenClose : Span
deriving DecidableEq, Repr

mutual

/-- `ast::Expr`. -/
inductive Expr where
  | stringExpr (e : StringExpr)
  | list (e : ListExpr)
  | shell (e : KwStringExpr)
  | glob (e : KwStringExpr)
  | which (e : KwStringExpr)
  | join (e : KwStringExpr)
  | env (e : KwStringExpr)
  | matchExpr (e : MatchExpr)
  | info (e : KwStringExpr)
  | warn (e : KwStringExpr)
  | error (e : KwStringExpr)
  | ident (i : Ident)
  | thenExpr (t : ThenExpr)
deriving Repr

/-- `ast::ThenExpr` (one `lhs => rhs` chain link). -/
inductive ThenExpr where
  | mk (span : Span) (expr : Expr) (ws1 : Whitespace) (tokenFatArrow : Span)
      (ws2 : Whitespace) (thenPart : Expr)
deriving Repr

/-- `ast::ListExpr<Expr>`. -/
inductive ListExpr where
  | mk (span : Span) (tokenOpen : Span) (items : List (BodyStmtG Expr))
      (wsTrailing : Whitespace) (tokenClose : Span)
deriving Repr

/-- `ast::MatchExpr`. -/
inductive MatchExpr where
  | mk (span : Span) (tokenMatch : Span) (ws1 : Whitespace)
      (body : BodyG MatchArm)
deriving Repr

/-- `ast::MatchArm`. -/
inductive MatchArm where
  | mk (span : Span) (pattern : PatternExpr) (ws1 : Whitespace)
      (tokenFatArrow : Span) (ws2 : Whitespace) (expr : Expr)
deriving Repr

end

def ThenExpr.span : ThenExpr → Span
  | .mk sp _ _ _ _ _ => sp

def ThenExpr.lhs : ThenExpr → Expr
  | .mk _ e _ _ _ _ => e

def ThenExpr.rhs : ThenExpr → Expr
  | .mk _ _ _ _ _ t => t

def ListExpr.span : ListExpr → Span
  | .mk sp _ _ _ _ => sp

def MatchExpr.span : MatchExpr → Span
  | .mk sp _ _ _ => sp

def MatchArm.span : MatchArm → Span
  | .mk sp _ _ _ _ _ => sp

/-- `ast::Expr::span()` (every node carries its span at the top). -/
def Expr.span : Expr → Span
  | .stringExpr e => e.span
  | .list e => e.span
  | .shell e => e.span
  | .glob e => e.span
  | .which e => e.span
  | .join e => e.span
  | .env e => e.span
  | .matchExpr e => e.span
  | .info e => e.span
  | .warn e => e.span
  | .error e => e.span
  | .ident i => i.span
  | .thenExpr t => t.span

def Expr.isThen : Expr → Bool
  | .thenExpr _ => true
  | _ => false

/-- `ast::LetStmt`. -/
structure LetStmt where
  span : Span
  tokenLet : Span
  ws1 : Whitespace
  ident : Ident
  ws2 : Whitespace
  tokenEq : Span
  ws3 : Whitespace
  value : Expr
deriving Repr

/-- `ast::KwExpr<T, Expr>` (`from` / `build` / `depfile` statements). -/
structure KwChainExpr where
  span : Span
  token : Span
  ws1 : Whitespace
  param : Expr
deriving Repr

/-- `ast::WriteExpr`. -/
structure WriteExpr where
  span : Span
  tokenWrite : Span
  ws1 : Whitespace
  path : Expr
  ws2 : Whitespace
  tokenComma : Span
  ws3 : Whitespace
  value : Expr
deriving Repr

/-- `ast::CopyExpr`. -/
structure CopyExpr where
  span : Span
  tokenCopy : Span
  ws1 : Whitespace
  src : StringExpr
  ws2 : Whitespace
  tokenComma : Span
  ws3 : Whitespace
  dest : StringExpr
deriving Repr

/-- `ast::RunExpr`. -/
inductive RunExpr where
  | shell (e : KwStringExpr)
  | list (span : Span) (tokenOpen : Span) (items : List (BodyStmtG RunExpr))
      (wsTrailing : Whitespace) (tokenClose : Span)
  | info (e : KwStringExpr)
  | warn (e : KwStringExpr)
  | write (e : WriteExpr)
  | copy (e : CopyExpr)
  | block (b : BodyG RunExpr)
deriving Repr

/-- `ast::KwExpr<token::Run, RunExpr>`. -/
structure RunStmt where
  span : Span
  token : Span
  ws1 : Whitespace
  param : RunExpr
deriving Repr

/-- `ast::TaskRecipeStmt`. -/
inductive TaskRecipeStmt where
  | letStmt (s : LetStmt)
  | build (s : KwChainExpr)
  | run (s : RunStmt)
  | info (s : KwStringExpr)
  | warn (s : KwStringExpr)
deriving Repr

/-- `ast::BuildRecipeStmt`. -/
inductive BuildRecipeStmt where
  | fromStmt (s : KwChainExpr)
  | letStmt (s : LetStmt)
  | depfile (s : KwChainExpr)
  | run (s : RunStmt)
  | info (s : KwStringExpr)
  | warn (s : KwStringExpr)
deriving Repr

/-- `ast::CommandRecipe` (a `task` recipe). -/
structure CommandRecipe where
  span : Span
  tokenTask : Span
  ws1 : Whitespace
  name : Ident
  ws2 : Whitespace
  body : BodyG TaskRecipeStmt
deriving Repr

/-- `ast::BuildRecipe`. -/
structure BuildRecipe where
  span : Span
  tokenBuild : Span
  ws1 : Whitespace
  pattern : PatternExpr
  ws2 : Whitespace
  body : BodyG BuildRecipeStmt
deriving Repr

/-- `ast::RootStmt`. -/
inductive RootStmt where
  | config (s : ConfigStmt)
  | letStmt (s : LetStmt)
  | task (s : CommandRecipe)
  | build (s : BuildRecipe)
deriving Repr

/-- `ast::Root`. -/
structure Root where
  statements : List (BodyStmtG RootStmt)
  wsTrailing : Whitespace
deriving Repr

/-! ### The statement and list loops (`statements_delimited`, `list_of`) -/

/-- The loop of `statements_delimited`: after the open parser and the
leading whitespace, repeatedly (1) try the terminal, (2) fail with the
"statements must be separated" description at the span of the last parsed
item when no separator was seen, (3) parse the next item followed by its
whitespace and optional semicolon.  `item` is the statement parser already
wrapped in `with_token_span`. -/
def stmtsLoop (item : WParser (α × Span)) (terminal : WParser β) (s : Src) :
    Nat → Nat → ParsedWhitespace → Bool → Span → List (BodyStmtG α) →
    PRes (List (BodyStmtG α) × Whitespace × β)
  | 0, i, _, _, _, _ => .fail false fuelErr i
  | fuel + 1, i, lastDecor, hasSep, lastSpan, acc =>
    match terminal s i with
    | .ok close n => .ok (acc, lastDecor.intoWhitespace, close) n
    | .fail _ _ _ =>
      if !hasSep then
        .fail false
          (perr (.description "statements must be separated by semicolon or newlines" lastSpan)) i
      else
        match item s i with
        | .fail c e q => .fail c e q
        | .ok (v, sp) n =>
          let pw := whitespaceParsedAt s n
          match tokenCharP ';' s pw.span.stop with
          | .ok semi m =>
            let pw2 := whitespaceParsedAt s m
            stmtsLoop item terminal s fuel pw2.span.stop pw2 true sp
              (acc ++ [⟨lastDecor.intoWhitespace, v, some (pw.intoWhitespace, semi)⟩])
          | .fail _ _ _ =>
            stmtsLoop item terminal s fuel pw.span.stop pw pw.isStatementSeparator sp
              (acc ++ [⟨lastDecor.intoWhitespace, v, none⟩])

/-- The loop of `list_of`: items separated by commas, terminated by `]`;
a missing comma is a hard "list items must be separated by commas" error at
the span of the last parsed item. -/
def listLoop (item : WParser (α × Span)) (s : Src) :
    Nat → Nat → Whitespace → Bool → Span → List (BodyStmtG α) →
    PRes (List (BodyStmtG α) × Whitespace × Span)
  | 0, i, _, _, _, _ => .fail false fuelErr i
  | fuel + 1, i, lastDecor, hasSep, lastSpan, acc =>
    match tokenCharP ']' s i with
    | .ok close n => .ok (acc, lastDecor, close) n
    | .fail _ _ _ =>
      if !hasSep then
        .fail false (perr (.description "list items must be separated by commas" lastSpan)) i
      else
        match item s i with
        | .fail c e q => .fail c e q
        | .ok (v, sp) n =>
          let wsBefore := (whitespaceParsedAt s n).intoWhitespace
          match tokenCharP ',' s wsBefore.stop with
          | .ok comma m =>
            let wsAfter := (whitespaceParsedAt s m).intoWhitespace
            listLoop item s fuel wsAfter.stop wsAfter true sp
              (acc ++ [⟨lastDecor, v, some (wsBefore, comma)⟩])
          | .fail _ _ _ =>
            listLoop item s fuel wsBefore.stop wsBefore false sp
              (acc ++ [⟨lastDecor, v, none⟩])

/-- `list_of(parse_item)`: `[` items `]`, the item parser cut and spanned;
returns `(merged span, open, items, trailing ws, close)`. -/
def listOfP (item : WParser α) :
    WParser (Span × Span × List (BodyStmtG α) × Whitespace × Span) := fun s i =>
  match tokenCharP '[' s i with
  | .fail c e q => .fail c e q
  | .ok opn n =>
    let ws0 := (whitespaceParsedAt s n).intoWhitespace
    match listLoop (withTokenSpan (pcut item)) s (s.length + 2) ws0.stop ws0 true ⟨0, 0⟩ [] with
    | .fail c e q => .fail c e q
    | .ok (items, wsT, close) m => .ok (opn.merge close, opn, items, wsT, close) m

/-- `body(stmt_parser)`: `statements_delimited(token, stmt, token)` with
braces. -/
def bodyP (stmt : WParser α) : WParser (BodyG α) := fun s i =>
  match tokenCharP '{' s i with
  | .fail c e q => .fail c e q
  | .ok opn n =>
    let pw := whitespaceParsedAt s n
    match stmtsLoop (withTokenSpan stmt) (tokenCharP '}') s (s.length + 2)
        pw.span.stop pw true ⟨0, 0⟩ [] with
    | .fail c e q => .fail c e q
    | .ok (stmts, wsT, close) m => .ok ⟨opn, stmts, wsT, close⟩ m

/-! ### Expression chaining (`expression_chain`) -/

/-- One parsed chain link: `(ws, "=>" span, ws, right operand)`. -/
abbrev ChainLink := Whitespace × Span × Whitespace × Expr

/-- `expression_chain_link`: `(whitespace, then_arrow, whitespace,
cut_err(expression_leaf))`. -/
def chainLinkP (leaf : WParser Expr) : WParser ChainLink := fun s i =>
  match thenArrowP s (whitespaceParsedAt s i).span.stop with
  | .fail c e q => .fail c e q
  | .ok tok n =>
    match pcut leaf s (whitespaceParsedAt s n).span.stop with
    | .fail c e q => .fail c e q
    | .ok e m =>
      .ok ((whitespaceParsedAt s i).intoWhitespace, tok,
        (whitespaceParsedAt s n).intoWhitespace, e) m

/-- The `repeat(0.., expression_chain_link)` loop. -/
def chainLinks (leaf : WParser Expr) (s : Src) :
    Nat → Nat → List ChainLink → PRes (List ChainLink)
  | 0, i, _ => .fail false fuelErr i
  | fuel + 1, i, acc =>
    match chainLinkP leaf s i with
    | .ok l n => chainLinks leaf s fuel n (acc ++ [l])
    | .fail true e p => .fail true e p
    | .fail false _ _ => .ok acc i

/-- The fold step of `expression_chain`: wrap the accumulated expression and
the next link into a `ThenExpr` whose span is `merge(lhs.span, rhs.span)`. -/
def mkThen (e : Expr) (l : ChainLink) : Expr :=
  .thenExpr (.mk (e.span.merge l.2.2.2.span) e l.1 l.2.1 l.2.2.1 l.2.2.2)

/-- `expression_chain` given the leaf parser: a leaf followed by folded
chain links. -/
def mkChain (leaf : WParser Expr) : WParser Expr := fun s i =>
  match leaf s i with
  | .fail c e q => .fail c e q
  | .ok leaf0 n =>
    match chainLinks leaf s (s.length + 2) n [] with
    | .fail c e q => .fail c e q
    | .ok links m => .ok (links.foldl mkThen leaf0) m

/-! ### Keyword expressions and statements -/

/-- `kw_expr` with a string-literal parameter
(`(keyword, whitespace_nonempty, cut_err(param)).with_token_span()`). -/
def kwExprString (kw : String) (label : String) : WParser KwStringExpr := fun s i =>
  match keywordP kw s i with
  | .fail c e q => .fail c e q
  | .ok tok n =>
    match whitespaceNonemptyP s n with
    | .fail c e q => .fail c e q
    | .ok ws1 n2 =>
      match pcut (pctx label stringExprP) s n2 with
      | .fail c e q => .fail c e q
      | .ok param m => .ok ⟨⟨i, m⟩, tok, ws1, param⟩ m

def shellExprP : WParser KwStringExpr :=
  kwExprString "shell" "string literal after `shell` keyword"

def globExprP : WParser KwStringExpr :=
  kwExprString "glob" "string literal after `glob` keyword"

def whichExprP : WParser KwStringExpr :=
  kwExprString "which" "string literal after `which` keyword"

def joinExprP : WParser KwStringExpr :=
  kwExprString "join" "string literal after `join` keyword"

def envExprP : WParser KwStringExpr :=
  kwExprString "env" "string literal after `env` keyword"

def infoExprP : WParser KwStringExpr :=
  kwExprString "info" "`info` keyword must be followed by a string literal"

def warnExprP : WParser KwStringExpr :=
  kwExprString "warn" "`warn` keyword must be followed by a string literal"

def errorExprP : WParser KwStringExpr :=
  kwExprString "error" "string literal after `error` keyword"

/-- `cut_err(fail).context(Expected::Expected(label))` (the trailing branch
of the statement alternatives). -/
def pcutFail (label : String) : WParser α := fun _ i =>
  .fail true (perr (.expected label)) i

/-- `config_value(key)`: `true`/`false` for `print-commands`, otherwise a
cut raw string literal. -/
def configValueP (key : String) : WParser ConfigValue := fun s i =>
  if key = "print-commands" then
    (porelse (pmap (fun _ => ConfigValue.bool true) (keywordP "true"))
      (porelse (pmap (fun _ => ConfigValue.bool false) (keywordP "false"))
        (fun _ j => .fail false (perr (.expected "`true` or `false` for `print-commands`")) j))) s i
  else
    pcut (pmap ConfigValue.string escapedStringP) s i

/-- The `seq!` part of `config_stmt` (span patched afterwards). -/
def configStmtInner : WParser ConfigStmt := fun s i =>
  match keywordP "config" s i with
  | .fail c e q => .fail c e q
  | .ok tokCfg n =>
    let ws1 := (whitespaceParsedAt s n).intoWhitespace
    match pcut (pctx "`config` must be followed by an identifier" identifierP) s ws1.stop with
    | .fail c e q => .fail c e q
    | .ok id n2 =>
      let ws2 := (whitespaceParsedAt s n2).intoWhitespace
      match pcut (tokenCharP '=') s ws2.stop with
      | .fail c e q => .fail c e q
      | .ok tokEq n3 =>
        let ws3 := (whitespaceParsedAt s n3).intoWhitespace
        match pcut (configValueP id.ident) s ws3.stop with
        | .fail c e q => .fail c e q
        | .ok v m => .ok ⟨⟨0, 0⟩, tokCfg, ws1, id, ws2, tokEq, ws3, v⟩ m

/-- `config_stmt`: the sequence above followed by the key/value validation
table, whose mismatches are cut errors at the statement's end. -/
def configStmtP : WParser ConfigStmt := fun s i =>
  match withTokenSpan configStmtInner s i with
  | .fail c e q => .fail c e q
  | .ok (cfg0, sp) n =>
    let cfg : ConfigStmt := { cfg0 with span := sp }
    if cfg.ident.ident = "print-commands" then
      if cfg.value.isBool then .ok cfg n
      else .fail true (perr (.expected "boolean value for `print-commands`")) n
    else if cfg.ident.ident = "edition" then
      if cfg.value.isString then .ok cfg n
      else .fail true (perr (.expected "string literal for `edition`")) n
    else if cfg.ident.ident = "out-dir" then
      if cfg.value.isString then .ok cfg n
      else .fail true (perr (.expected "string literal for `out-dir`")) n
    else if cfg.ident.ident = "default" then
      if cfg.value.isString then .ok cfg n
      else .fail true (perr (.expected "string literal for `default`")) n
    else
      .fail true
        (perr (.expected "config key, one of `out-dir`, `edition`, `print-commands`, or `default`")) n

/-- `let_stmt` given the expression parser. -/
def mkLetStmt (chain : WParser Expr) : WParser LetStmt := fun s i =>
  match keywordP "let" s i with
  | .fail c e q => .fail c e q
  | .ok tokLet n =>
    match pcut (pctx "whitespace after `let`" whitespaceNonemptyP) s n with
    | .fail c e q => .fail c e q
    | .ok ws1 n1 =>
      match pcut (pctx "`let` must be followed by an identifier" identifierP) s n1 with
      | .fail c e q => .fail c e q
      | .ok id n2 =>
        let ws2 := (whitespaceParsedAt s n2).intoWhitespace
        match pcut (tokenCharP '=') s ws2.stop with
        | .fail c e q => .fail c e q
        | .ok tokEq n3 =>
          let ws3 := (whitespaceParsedAt s n3).intoWhitespace
          match pcut chain s ws3.stop with
          | .fail c e q => .fail c e q
          | .ok v m => .ok ⟨⟨i, m⟩, tokLet, ws1, id, ws2, tokEq, ws3, v⟩ m

/-- `kw_expr` with a chained-expression parameter (`from` / `build` /
`depfile` statements). -/
def mkKwChain (kw : String) (chain : WParser Expr) : WParser KwChainExpr := fun s i =>
  match keywordP kw s i with
  | .fail c e q => .fail c e q
  | .ok tok n =>
    match whitespaceNonemptyP s n with
    | .fail c e q => .fail c e q
    | .ok ws1 n2 =>
      match pcut chain s n2 with
      | .fail c e q => .fail c e q
      | .ok param m => .ok ⟨⟨i, m⟩, tok, ws1, param⟩ m

/-- `run_stmt`: `kw_expr(run_expression)`. -/
def mkRunStmt (runExpr : WParser RunExpr) : WParser RunStmt := fun s i =>
  match keywordP "run" s i with
  | .fail c e q => .fail c e q
  | .ok tok n =>
    match whitespaceNonemptyP s n with
    | .fail c e q => .fail c e q
    | .ok ws1 n2 =>
      match pcut runExpr s n2 with
      | .fail c e q => .fail c e q
      | .ok param m => .ok ⟨⟨i, m⟩, tok, ws1, param⟩ m

/-- `write_expr` (path and value are leaf expressions; the comma is not
cut). -/
def mkWriteExpr (leaf : WParser Expr) : WParser WriteExpr := fun s i =>
  match keywordP "write" s i with
  | .fail c e q => .fail c e q
  | .ok tok n =>
    let ws1 := (whitespaceParsedAt s n).intoWhitespace
    match pcut leaf s ws1.stop with
    | .fail c e q => .fail c e q
    | .ok path n2 =>
      let ws2 := (whitespaceParsedAt s n2).intoWhitespace
      match tokenCharP ',' s ws2.stop with
      | .fail c e q => .fail c e q
      | .ok comma n3 =>
        let ws3 := (whitespaceParsedAt s n3).intoWhitespace
        match pcut leaf s ws3.stop with
        | .fail c e q => .fail c e q
        | .ok v m => .ok ⟨⟨i, m⟩, tok, ws1, path, ws2, comma, ws3, v⟩ m

/-- `copy_expr` (source and destination are string literals). -/
def copyExprP : WParser CopyExpr := fun s i =>
  match keywordP "copy" s i with
  | .fail c e q => .fail c e q
  | .ok tok n =>
    let ws1 := (whitespaceParsedAt s n).intoWhitespace
    match pcut stringExprP s ws1.stop with
    | .fail c e q => .fail c e q
    | .ok src n2 =>
      let ws2 := (whitespaceParsedAt s n2).intoWhitespace
      match tokenCharP ',' s ws2.stop with
      | .fail c e q => .fail c e q
      | .ok comma n3 =>
        let ws3 := (whitespaceParsedAt s n3).intoWhitespace
        match pcut stringExprP s ws3.stop with
        | .fail c e q => .fail c e q
        | .ok dst m => .ok ⟨⟨i, m⟩, tok, ws1, src, ws2, comma, ws3, dst⟩ m

/-- `match_arm` given the expression parser. -/
def mkMatchArm (chain : WParser Expr) : WParser MatchArm := fun s i =>
  match pcut (pctx "match arm must start with a pattern literal" patternExprP) s i with
  | .fail c e q => .fail c e q
  | .ok pat n =>
    let ws1 := (whitespaceParsedAt s n).intoWhitespace
    match pcut (pctx "match arm is missing a `=>`" (keywordP "=>")) s ws1.stop with
    | .fail c e q => .fail c e q
    | .ok arrow n2 =>
      let ws2 := (whitespaceParsedAt s n2).intoWhitespace
      match pcut chain s ws2.stop with
      | .fail c e q => .fail c e q
      | .ok e m => .ok (.mk ⟨i, m⟩ pat ws1 arrow ws2 e) m

/-- `match_expr` given the expression parser. -/
def mkMatchExpr (chain : WParser Expr) : WParser MatchExpr := fun s i =>
  match keywordP "match" s i with
  | .fail c e q => .fail c e q
  | .ok tok n =>
    let ws1 := (whitespaceParsedAt s n).intoWhitespace
    match pcut (bodyP (mkMatchArm chain)) s ws1.stop with
    | .fail c e q => .fail c e q
    | .ok body m => .ok (.mk ⟨i, m⟩ tok ws1 body) m

/-- `expression_leaf` given the chained-expression parser (for lists and
match arms): the `alt` over all leaf forms, ending in identifiers. -/
def mkLeaf (chain : WParser Expr) : WParser Expr :=
  porelse (pmap Expr.stringExpr stringExprP)
    (porelse
      (pmap (fun r => Expr.list (.mk r.1 r.2.1 r.2.2.1 r.2.2.2.1 r.2.2.2.2)) (listOfP chain))
      (porelse (pmap Expr.shell shellExprP)
        (porelse (pmap Expr.glob globExprP)
          (porelse (pmap Expr.which whichExprP)
            (porelse (pmap Expr.join joinExprP)
              (porelse (pmap Expr.env envExprP)
                (porelse (pmap Expr.matchExpr (mkMatchExpr chain))
                  (porelse (pmap Expr.info infoExprP)
                    (porelse (pmap Expr.warn warnExprP)
                      (porelse (pmap Expr.error errorExprP)
                        (pmap Expr.ident identifierP)))))))))))

/-- `run_expression` given itself (for lists and blocks) and the leaf
expression parser (for `write`); the `shell` branch appears twice, as in the
source. -/
def mkRunExpr (self : WParser RunExpr) (leaf : WParser Expr) : WParser RunExpr :=
  porelse (pmap RunExpr.shell shellExprP)
    (porelse
      (pmap (fun r => RunExpr.list r.1 r.2.1 r.2.2.1 r.2.2.2.1 r.2.2.2.2) (listOfP self))
      (porelse (pmap RunExpr.shell shellExprP)
        (porelse (pmap RunExpr.info infoExprP)
          (porelse (pmap RunExpr.warn warnExprP)
            (porelse (pmap RunExpr.write (mkWriteExpr leaf))
              (porelse (pmap RunExpr.copy copyExprP)
                (pmap RunExpr.block (bodyP self))))))))

/-- The mutually recursive core of the grammar, tied by fuel: the chained
expression, leaf expression and run-expression parsers. -/
structure Grammar where
  chain : WParser Expr
  leaf : WParser Expr
  runExpr : WParser RunExpr

def grammarZero : Grammar :=
  ⟨fun _ i => .fail false fuelErr i, fun _ i => .fail false fuelErr i,
    fun _ i => .fail false fuelErr i⟩

def grammarStep (g : Grammar) : Grammar :=
  ⟨mkChain g.leaf, mkLeaf g.chain, mkRunExpr g.runExpr g.leaf⟩

/-- The grammar at recursion depth `fuel` (each nesting level of the input
consumes one unit). -/
def grammar : Nat → Grammar
  | 0 => grammarZero
  | fuel + 1 => grammarStep (grammar fuel)

def expressionChainP (fuel : Nat) : WParser Expr := (grammar fuel).chain

def expressionLeafP (fuel : Nat) : WParser Expr := (grammar fuel).leaf

def runExpressionP (fuel : Nat) : WParser RunExpr := (grammar fuel).runExpr

def letStmtP (fuel : Nat) : WParser LetStmt := mkLetStmt (expressionChainP fuel)

def runStmtP (fuel : Nat) : WParser RunStmt := mkRunStmt (runExpressionP fuel)

/-- `task_recipe_stmt`. -/
def taskRecipeStmtP (fuel : Nat) : WParser TaskRecipeStmt :=
  porelse (pmap TaskRecipeStmt.letStmt (letStmtP fuel))
    (porelse (pmap TaskRecipeStmt.build (mkKwChain "build" (expressionChainP fuel)))
      (porelse (pmap TaskRecipeStmt.run (runStmtP fuel))
        (porelse (pmap TaskRecipeStmt.info infoExprP)
          (porelse (pmap TaskRecipeStmt.warn warnExprP)
            (pcutFail "`let`, `from`, `build`, `depfile`, `run`, or `echo` statement")))))

/-- `build_recipe_stmt`. -/
def buildRecipeStmtP (fuel : Nat) : WParser BuildRecipeStmt :=
  porelse (pmap BuildRecipeStmt.fromStmt (mkKwChain "from" (expressionChainP fuel)))
    (porelse (pmap BuildRecipeStmt.letStmt (letStmtP fuel))
      (porelse (pmap BuildRecipeStmt.depfile (mkKwChain "depfile" (expressionChainP fuel)))
        (porelse (pmap BuildRecipeStmt.run (runStmtP fuel))
          (porelse (pmap BuildRecipeStmt.info infoExprP)
            (porelse (pmap BuildRecipeStmt.warn warnExprP)
              (pcutFail "`let`, `from`, `build`, `depfile`, `run`, or `echo` statement"))))))

/-- `task_recipe`. -/
def taskRecipeP (fuel : Nat) : WParser CommandRecipe := fun s i =>
  match keywordP "task" s i with
  | .fail c e q => .fail c e q
  | .ok tok n =>
    let ws1 := (whitespaceParsedAt s n).intoWhitespace
    match pcut (pctx "`task` must be followed by an identifier" identifierP) s ws1.stop with
    | .fail c e q => .fail c e q
    | .ok name n2 =>
      let ws2 := (whitespaceParsedAt s n2).intoWhitespace
      match bodyP (taskRecipeStmtP fuel) s ws2.stop with
      | .fail c e q => .fail c e q
      | .ok body m => .ok ⟨⟨i, m⟩, tok, ws1, name, ws2, body⟩ m

/-- `build_recipe`. -/
def buildRecipeP (fuel : Nat) : WParser BuildRecipe := fun s i =>
  match keywordP "build" s i with
  | .fail c e q => .fail c e q
  | .ok tok n =>
    let ws1 := (whitespaceParsedAt s n).intoWhitespace
    match pcut (pctx "`build` must be followed by a string literal" patternExprP) s ws1.stop with
    | .fail c e q => .fail c e q
    | .ok pat n2 =>
      let ws2 := (whitespaceParsedAt s n2).intoWhitespace
      match bodyP (buildRecipeStmtP fuel) s ws2.stop with
      | .fail c e q => .fail c e q
      | .ok body m => .ok ⟨⟨i, m⟩, tok, ws1, pat, ws2, body⟩ m

/-- `root_stmt`. -/
def rootStmtP (fuel : Nat) : WParser RootStmt :=
  porelse (pmap RootStmt.config configStmtP)
    (porelse (pmap RootStmt.letStmt (letStmtP fuel))
      (porelse (pmap RootStmt.task (taskRecipeP fuel))
        (porelse (pmap RootStmt.build (buildRecipeP fuel))
          (pcutFail "`config`, `let`, `task`, or `build` statement"))))

/-- `root`: `statements_delimited(empty, root_stmt, peek(eof))`. -/
def rootP (fuel : Nat) : WParser Root := fun s i =>
  let pw := whitespaceParsedAt s i
  match stmtsLoop (withTokenSpan (rootStmtP fuel)) peekEofP s (s.length + 2)
      pw.span.stop pw true ⟨0, 0⟩ [] with
  | .fail c e q => .fail c e q
  | .ok (stmts, wsT, _) n => .ok ⟨stmts, wsT⟩ n

/-- `crate::Error::Werk(span, context_error)` as produced by `parse_werk`:
the span is the empty span at the offset where the failing parse left the
input. -/
inductive WerkError where
  | werk (span : Span) (err : ContextError)
deriving DecidableEq, Repr

def WerkError.span : WerkError → Span
  | .werk sp _ => sp

def WerkError.err : WerkError → ContextError
  | .werk _ e => e

/-- `parse_werk`: run `root` over the whole source; on failure, wrap the
error with the empty span at the final input offset
(`span(err.offset()..err.offset())`). -/
def parseWerk (s : Src) : Except WerkError Root :=
  match rootP (s.length + 16) s 0 with
  | .ok root _ => .ok root
  | .fail _ e p => .error (.werk ⟨p, p⟩ e)

/-! ## The terminal progress watcher

Model of src/werk-cli/watcher/ansi.rs (`TerminalWatcher` / `Renderer`)
and src/werk-cli/watcher.rs (`StdoutWatcher` / `StdioLock`,
`AutoStreamKind::detect`).  Writes to the output streams are modelled as
lists of semantic output events; the spinner animation and its timing
(`spinner_frame`, `last_spinner_tick`, real-time ticks) are not observable
by any claim and are not modelled. -/

/-- `werk_runner::TaskId` (external to src/): either a named task or a
build-output path; `as_path` is `some` exactly on paths. -/
inductive TaskId where
  | task (name : String)
  | path (p : String)
deriving DecidableEq, Repr

def TaskId.asPath : TaskId → Option String
  | .path p => some p
  | .task _ => none

def TaskId.asString : TaskId → String
  | .path p => p
  | .task n => n

/-- Modelled from the spec (glossary: "Outdatedness — set of reasons a
recipe's output is judged stale"): `is_outdated` holds when there is at
least one reason. -/
structure Outdatedness where
  reasons : List String
deriving DecidableEq, Repr

def Outdatedness.isOutdated (o : Outdatedness) : Bool :=
  !o.reasons.isEmpty

/-- `werk_runner::BuildStatus` as matched by `did_build`. -/
inductive BuildStatus where
  | complete (id : TaskId) (outdatedness : Outdatedness)
  | existsStatus
deriving DecidableEq, Repr

/-- `Result<BuildStatus, werk_runner::Error>`, the error rendered by its
message. -/
inductive BuildResult where
  | ok (status : BuildStatus)
  | err (msg : String)
deriving DecidableEq, Repr

/-- `Result<ExitStatus, io::Error>` as matched by `did_execute`. -/
inductive ExecResult where
  | exit (success : Bool)
  | ioErr (msg : String)
deriving DecidableEq, Repr

/-- Colors applied by `owo_colors` style calls in the two watchers. -/
inductive Color where
  | brightGreen
  | brightYellow
  | brightBlue
  | brightRed
  | brightCyan
  | cyan
  | yellow
  | red
  | dimmed
deriving DecidableEq, Repr

/-- One write to an output stream; each constructor corresponds to one
`write!`/`writeln!`/`write_all` site of the watcher code, carrying the
runtime-dependent values. -/
inductive OutLine where
  /-- The `ESC[K` erase (ansi.rs `render_lines`) or the
  `MoveToColumn(0)+Clear(CurrentLine)` of `clear_current_line`
  (watcher.rs). -/
  | eraseLine
  /-- will_build explain line for a path: `[0/n] rebuilding `path``. -/
  | rebuilding (numSteps : Nat) (path : String)
  /-- will_build explain line for a task: `[0/n] running task `name``. -/
  | runningTask (numSteps : Nat) (name : String)
  /-- `  Cause: reason`. -/
  | cause (reason : String)
  /-- did_build success line `[ ok ] task` with optional ` (dry-run)`. -/
  | okLine (id : TaskId) (dryRun : Bool)
  /-- did_build fresh line `[ -- ] task`. -/
  | freshLine (id : TaskId)
  /-- did_build error line `[ERROR] task\nerr`. -/
  | errLine (id : TaskId) (msg : String)
  /-- will_execute echo `[i/n] task: command`. -/
  | commandEcho (step numSteps : Nat) (id : TaskId) (cmd : String)
  /-- did_execute failure line. -/
  | commandFailed (step numSteps : Nat) (id : TaskId) (cmd : String)
  /-- did_execute spawn-error line. -/
  | commandError (step numSteps : Nat) (id : TaskId) (cmd : String) (msg : String)
  /-- A forwarded child-process line plus newline. -/
  | childLine (bytes : List Nat)
  /-- A `message`/`warning` line: colored bracketed prefix plus text. -/
  | prefixLine (color : Color) (pfx : String) (msg : String)
  /-- Raw bytes passed through `write_raw_{stdout,stderr}`. -/
  | raw (bytes : List Nat)
  /-- The status line written by `render_progress`/`render`:
  `[done/total]` plus the current task names. -/
  | progress (completed total : Nat) (names : List String)
deriving DecidableEq, Repr

/-- `OutputSettings` (src/werk-cli/watcher.rs). -/
structure OutputSettings where
  loggingEnabled : Bool
  printRecipeCommands : Bool
  printFresh : Bool
  dryRun : Bool
  noCapture : Bool
  explain : Bool
deriving DecidableEq, Repr

/-- Insertion-ordered map operations of `indexmap::IndexMap` restricted to
what the watcher uses. -/
def imKeys (m : List (TaskId × Nat × Nat)) : List TaskId := m.map Prod.fst

/-- `IndexMap::insert`: replace the value in place when the key is present
(keeping its position), else append at the end. -/
def imInsert : List (TaskId × Nat × Nat) → TaskId → Nat × Nat →
    List (TaskId × Nat × Nat)
  | [], k, v => [(k, v)]
  | e :: es, k, v => if e.1 = k then (k, v) :: es else e :: imInsert es k v

/-- `IndexMap::shift_remove`: drop the key, preserving order. -/
def imShiftRemove (m : List (TaskId × Nat × Nat)) (k : TaskId) :
    List (TaskId × Nat × Nat) :=
  m.filter (fun e => e.1 ≠ k)

/-- `IndexMap::get_mut` lookup. -/
def imLookup (m : List (TaskId × Nat × Nat)) (k : TaskId) : Option (Nat × Nat) :=
  (m.find? (fun e => e.1 = k)).map Prod.snd

/-- Point update of the value at `k`. -/
def imSet (m : List (TaskId × Nat × Nat)) (k : TaskId) (v : Nat × Nat) :
    List (TaskId × Nat × Nat) :=
  m.map (fun e => if e.1 = k then (k, v) else e)

/-- `RenderState` of the ANSI renderer (spinner/timing fields omitted, see
above). -/
structure RenderState where
  currentTasks : List (TaskId × Nat × Nat)
  numTasks : Nat
  numCompletedTasks : Nat
  settings : OutputSettings
deriving DecidableEq, Repr

/-- `Renderer<LINEAR>` plus its two output streams; `linear` models the
`LINEAR` const generic. -/
structure Renderer where
  linear : Bool
  state : RenderState
  needsClear : Bool
  outStdout : List OutLine
  outStderr : List OutLine
deriving DecidableEq, Repr

/-- `RenderState::render_progress`: nothing in linear mode or when no task
is running; otherwise the status line with the counters and the current
task names (name truncation summarized by the name list). -/
def renderProgressLines (linear : Bool) (st : RenderState) : List OutLine :=
  if linear then []
  else if st.currentTasks.isEmpty then []
  else [.progress st.numCompletedTasks st.numTasks (st.currentTasks.map (·.1.asString))]

/-- `Renderer::render_lines`: in linear mode just append the rendered
lines; otherwise erase a pending status line, append the lines, re-render
the status and set `needs_clear`. -/
def renderLines (r : Renderer) (lines : List OutLine) : Renderer :=
  if r.linear then { r with outStdout := r.outStdout ++ lines }
  else
    { r with
      outStdout := r.outStdout
        ++ (if r.needsClear then [.eraseLine] else [])
        ++ lines
        ++ renderProgressLines r.linear r.state
      needsClear := true }

/-- `Renderer::render_lines_stderr`: the lines go to stderr (erasing there
first), the status re-render still goes to stdout. -/
def renderLinesStderr (r : Renderer) (lines : List OutLine) : Renderer :=
  if r.linear then { r with outStderr := r.outStderr ++ lines }
  else
    { r with
      outStderr := r.outStderr
        ++ (if r.needsClear then [.eraseLine] else [])
        ++ lines
      outStdout := r.outStdout ++ renderProgressLines r.linear r.state
      needsClear := true }

/-- `Renderer::will_build`: register the task, bump `num_tasks`, and emit
the explanation lines when `explain` is set and the task is outdated. -/
def willBuildR (r : Renderer) (id : TaskId) (numSteps : Nat) (out : Outdatedness) :
    Renderer :=
  let r :=
    { r with
      state :=
        { r.state with
          currentTasks := imInsert r.state.currentTasks id (0, numSteps)
          numTasks := r.state.numTasks + 1 } }
  let lines : List OutLine :=
    if r.state.settings.explain && out.isOutdated then
      (match id.asPath with
        | some p => [.rebuilding numSteps p]
        | none => [.runningTask numSteps id.asString])
        ++ out.reasons.map OutLine.cause
    else []
  renderLines r lines

/-- `Renderer::did_build`: drop the task (`shift_remove(..).unwrap_or_default()`
tolerates an absent id), bump `num_completed_tasks`, and emit the result
line. -/
def didBuildR (r : Renderer) (id : TaskId) (result : BuildResult) : Renderer :=
  let r :=
    { r with
      state :=
        { r.state with
          currentTasks := imShiftRemove r.state.currentTasks id
          numCompletedTasks := r.state.numCompletedTasks + 1 } }
  let lines : List OutLine :=
    match result with
    | .ok (.complete _ outdatedness) =>
      if outdatedness.isOutdated then [.okLine id r.state.settings.dryRun]
      else if r.state.settings.printFresh then [.freshLine id]
      else []
    | .ok .existsStatus => []
    | .err msg => [.errLine id msg]
  renderLines r lines

/-- The progress update `*current_tasks.get_mut(id) = (step+1, num_steps)`
of `will_execute`. -/
def willExecUpdate (r : Renderer) (id : TaskId) (step numSteps : Nat) : Renderer :=
  { r with
    state :=
      { r.state with currentTasks := imSet r.state.currentTasks id (step + 1, numSteps) } }

/-- `Renderer::will_execute`: `none` models the
`.expect("task not registered")` panic when the task id is absent from
`current_tasks`; otherwise the progress is updated and the command echoed
when `dry_run` or `print_recipe_commands` ask for it. -/
def willExecuteR (r : Renderer) (id : TaskId) (cmd : String) (step numSteps : Nat) :
    Option Renderer :=
  match imLookup r.state.currentTasks id with
  | none => none
  | some _ =>
    if r.state.settings.dryRun || r.state.settings.printRecipeCommands then
      some (renderLines (willExecUpdate r id step numSteps)
        [.commandEcho (step + 1) numSteps id cmd])
    else if !r.linear then some (renderLines (willExecUpdate r id step numSteps) [])
    else some (willExecUpdate r id step numSteps)

/-- `Renderer::did_execute`. -/
def didExecuteR (r : Renderer) (id : TaskId) (cmd : String) (result : ExecResult)
    (step numSteps : Nat) : Renderer :=
  match result with
  | .exit success =>
    if success then r
    else renderLines r [.commandFailed step numSteps id cmd]
  | .ioErr msg => renderLines r [.commandError (step + 1) numSteps id cmd msg]

/-- `Renderer::on_child_process_stdout_line`. -/
def childStdoutR (r : Renderer) (bytes : List Nat) : Renderer :=
  renderLines r [.childLine bytes]

/-- `Renderer::on_child_process_stderr_line`. -/
def childStderrR (r : Renderer) (bytes : List Nat) : Renderer :=
  renderLinesStderr r [.childLine bytes]

/-- `Renderer::message`: always the bright-green `[info]` prefix; the task
id parameter is ignored (`_task_id`). -/
def messageR (r : Renderer) (_taskId : Option TaskId) (msg : String) : Renderer :=
  renderLines r [.prefixLine .brightGreen "[info]" msg]

/-- `Renderer::warning`: always the bright-yellow `[warn]` prefix; the task
id parameter is ignored (`_task_id`). -/
def warningR (r : Renderer) (_taskId : Option TaskId) (msg : String) : Renderer :=
  renderLines r [.prefixLine .brightYellow "[warn]" msg]

/-- `TerminalWatcher::write_raw_stdout`: the bytes are written directly to
the stream, with no erase and no `needs_clear` bookkeeping. -/
def writeRawStdoutR (r : Renderer) (bytes : List Nat) : Renderer :=
  { r with outStdout := r.outStdout ++ [.raw bytes] }

/-- `TerminalWatcher::write_raw_stderr`. -/
def writeRawStderrR (r : Renderer) (bytes : List Nat) : Renderer :=
  { r with outStderr := r.outStderr ++ [.raw bytes] }

/-- The events of the `werk_runner::Watcher` capability, as received by
`TerminalWatcher`. -/
inductive WEvent where
  | willBuild (id : TaskId) (numSteps : Nat) (outdatedness : Outdatedness)
  | didBuild (id : TaskId) (result : BuildResult)
  | willExecute (id : TaskId) (cmd : String) (step numSteps : Nat)
  | didExecute (id : TaskId) (cmd : String) (result : ExecResult) (step numSteps : Nat)
  | childStdoutLine (id : TaskId) (cmd : String) (bytes : List Nat) (capture : Bool)
  | childStderrLine (id : TaskId) (cmd : String) (bytes : List Nat)
  | message (id : Option TaskId) (msg : String)
  | warning (id : Option TaskId) (msg : String)
  | writeRawStdout (bytes : List Nat)
  | writeRawStderr (bytes : List Nat)
deriving DecidableEq, Repr

/-- One watcher event applied to the renderer (the `impl Watcher for
TerminalWatcher` dispatch; captured child stdout lines are dropped there);
`none` models a panic. -/
def stepEvent (r : Renderer) : WEvent → Option Renderer
  | .willBuild id numSteps outdatedness => some (willBuildR r id numSteps outdatedness)
  | .didBuild id result => some (didBuildR r id result)
  | .willExecute id cmd step numSteps => willExecuteR r id cmd step numSteps
  | .didExecute id cmd result step numSteps => some (didExecuteR r id cmd result step numSteps)
  | .childStdoutLine _ _ bytes capture =>
    if capture then some r else some (childStdoutR r bytes)
  | .childStderrLine _ _ bytes => some (childStderrR r bytes)
  | .message id msg => some (messageR r id msg)
  | .warning id msg => some (warningR r id msg)
  | .writeRawStdout bytes => some (writeRawStdoutR r bytes)
  | .writeRawStderr bytes => some (writeRawStderrR r bytes)

/-- Run a sequence of events; `none` as soon as one of them panics. -/
def runEvents (r : Renderer) : List WEvent → Option Renderer
  | [] => some r
  | ev :: evs =>
    match stepEvent r ev with
    | none => none
    | some r' => runEvents r' evs

/-- The watcher state at construction (`TerminalWatcher::new`). -/
def initialRenderer (linear : Bool) (settings : OutputSettings) : Renderer :=
  ⟨linear, ⟨[], 0, 0, settings⟩, false, [], []⟩

/-- Number of `will_build` events in a sequence. -/
def willBuildCount : List WEvent → Nat
  | [] => 0
  | .willBuild _ _ _ :: evs => willBuildCount evs + 1
  | _ :: evs => willBuildCount evs

/-- Number of `did_build` events in a sequence. -/
def didBuildCount : List WEvent → Nat
  | [] => 0
  | .didBuild _ _ :: evs => didBuildCount evs + 1
  | _ :: evs => didBuildCount evs

/-! ### The `StdoutWatcher` / `StdioLock` variant (src/werk-cli/watcher.rs) -/

/-- `AutoStreamKind` (the `Wincon` case exists only on Windows). -/
inductive AutoStreamKind where
  | ansi
  | strip
  | wincon
deriving DecidableEq, Repr

/-- `AutoStream::advanced_rendering`: everything but `Strip`. -/
def AutoStreamKind.advancedRendering : AutoStreamKind → Bool
  | .strip => false
  | _ => true

/-- `ColorChoice`. -/
inductive ColorChoice where
  | auto
  | always
  | never
deriving DecidableEq, Repr

/-- The platform probes consulted by `AutoStreamKind::detect`
(anstyle_query and `is_terminal`), gathered as one environment record.
`enableAnsiColors` is `anstyle_query::windows::enable_ansi_colors()`
(`none` off Windows); `windows` states whether the `cfg(windows)` fallback
is compiled in. -/
structure DetectEnv where
  noColor : Bool
  clicolorForce : Bool
  isTerminal : Bool
  enableAnsiColors : Option Bool
  termSupportsAnsiColor : Bool
  windows : Bool
deriving DecidableEq, Repr

/-- `AutoStreamKind::detect`. -/
def detect (env : DetectEnv) : ColorChoice → AutoStreamKind
  | .auto =>
    if env.noColor then .strip
    else
      let ansi :=
        if env.clicolorForce || env.isTerminal then env.enableAnsiColors.getD true
        else false
      let termSupports := ansi || env.termSupportsAnsiColor
      if termSupports then .ansi
      else if env.windows && env.isTerminal then .wincon
      else .strip
  | .always =>
    if env.enableAnsiColors = some false then .strip else .ansi
  | .never => .strip

/-- `StdoutWatcher`'s locked state (`Inner` plus the settings and stream
kind), with its single stdout stream modelled as an output list. -/
structure StdioState where
  kind : AutoStreamKind
  settings : OutputSettings
  currentTasks : List (TaskId × Nat × Nat)
  numTasks : Nat
  numCompletedTasks : Nat
  output : List OutLine
deriving DecidableEq, Repr

/-- `StdioLock::clear_current_line`: only with advanced rendering and
logging disabled. -/
def stdioClearLines (st : StdioState) : List OutLine :=
  if st.kind.advancedRendering && !st.settings.loggingEnabled then [.eraseLine] else []

/-- `StdioLock::render`: the status line, under the same conditions, when
tasks are running. -/
def stdioRenderLines (st : StdioState) : List OutLine :=
  if st.kind.advancedRendering && !st.settings.loggingEnabled then
    if st.currentTasks.isEmpty then []
    else [.progress st.numCompletedTasks st.numTasks (st.currentTasks.map (·.1.asString))]
  else []

/-- `StdioLock::message`: clear, then a cyan line — the bracketed task name
when a task id is given, otherwise `[info]` — then re-render. -/
def stdioMessage (st : StdioState) (taskId : Option TaskId) (msg : String) : StdioState :=
  let line : OutLine :=
    match taskId with
    | some id => .prefixLine .cyan ("[" ++ id.asString ++ "]") msg
    | none => .prefixLine .cyan "[info]" msg
  { st with output := st.output ++ stdioClearLines st ++ [line] ++ stdioRenderLines st }

/-- `StdioLock::warning`: as `message` but yellow and `[warn]`. -/
def stdioWarning (st : StdioState) (taskId : Option TaskId) (msg : String) : StdioState :=
  let line : OutLine :=
    match taskId with
    | some id => .prefixLine .yellow ("[" ++ id.asString ++ "]") msg
    | none => .prefixLine .yellow "[warn]" msg
  { st with output := st.output ++ stdioClearLines st ++ [line] ++ stdioRenderLines st }

/-! ### Auxiliary notions used by the theorems -/

def PRes.isOk : PRes α → Bool
  | .ok _ _ => true
  | .fail _ _ _ => false

def exceptOk : Except ε α → Bool
  | .ok _ => true
  | .error _ => false

/-- `a` covers `b` when `b`'s byte range lies inside `a`'s. -/
def Span.covers (a b : Span) : Bool :=
  a.start ≤ b.start && b.stop ≤ a.stop

/-- The keywords of the language (spec §4.1), including the reserved
`let`. -/
def werkKeywords : List String :=
  ["let", "task", "build", "config", "from", "run", "info", "warn", "error",
   "match", "shell", "glob", "which", "join", "env", "write", "copy",
   "depfile", "true", "false"]

/-- The `Then`-spine well-formedness of a chained expression: along the
left spine, every `ThenExpr` has `span = merge(lhs.span, rhs.span)` and its
right operand is a leaf (not itself a `Then`), i.e. the chain is
left-associated. -/
def thenSpineOk : Expr → Bool
  | .thenExpr (.mk sp lhs _ _ _ rhs) =>
    decide (sp = lhs.span.merge rhs.span) && !rhs.isThen && thenSpineOk lhs
  | _ => true

/-- Concrete input of claim C1: two adjacent `let` statements with no
separator. -/
def c1src : Src := "let x = a let y = b".data

/-- The C1 input with a `;` inserted between the two statements. -/
def c1srcFixed : Src := "let x = a; let y = b".data

/-- The first statement of `c1src` as parsed (`let x = a`). -/
def c1firstStmt : RootStmt :=
  .letStmt
    { span := ⟨0, 9⟩, tokenLet := ⟨0, 3⟩, ws1 := ⟨3, 4⟩,
      ident := ⟨⟨4, 5⟩, "x"⟩, ws2 := ⟨5, 6⟩, tokenEq := ⟨6, 7⟩,
      ws3 := ⟨7, 8⟩, value := .ident ⟨⟨8, 9⟩, "a"⟩ }

/-- Concrete input of claim C2 (spec scenario S2). -/
def c2src : Src := "let x = which \"clang\" => shell \"{x} --version\"".data

/-- The `which "clang"` operand of the S2 chain. -/
def c2which : Expr :=
  .which
    { span := ⟨8, 21⟩, token := ⟨8, 13⟩, ws1 := ⟨13, 14⟩,
      param := ⟨⟨14, 21⟩, [.literal "clang"]⟩ }

/-- The `shell "{x} --version"` operand of the S2 chain. -/
def c2shell : Expr :=
  .shell
    { span := ⟨25, 46⟩, token := ⟨25, 30⟩, ws1 := ⟨30, 31⟩,
      param := ⟨⟨31, 46⟩, [.interpolation ⟨.ident "x", none⟩, .literal " --version"]⟩ }

/-- The parse of `c2src`: one `let` whose value is
`ThenExpr(Which, Shell)` with the merged span. -/
def c2root : Root :=
  { statements :=
      [⟨⟨0, 0⟩,
        .letStmt
          { span := ⟨0, 46⟩, tokenLet := ⟨0, 3⟩, ws1 := ⟨3, 4⟩,
            ident := ⟨⟨4, 5⟩, "x"⟩, ws2 := ⟨5, 6⟩, tokenEq := ⟨6, 7⟩,
            ws3 := ⟨7, 8⟩,
            value := .thenExpr (.mk ⟨8, 46⟩ c2which ⟨21, 22⟩ ⟨22, 24⟩ ⟨24, 25⟩ c2shell) },
        none⟩],
    wsTrailing := ⟨46, 46⟩ }

/-- A three-leaf chain input showing the left-associated fold. -/
def c2assocSrc : Src := "x => y => z".data

/-- Expected parse of `c2assocSrc`: `(x => y) => z`. -/
def c2assocExpr : Expr :=
  .thenExpr
    (.mk ⟨0, 11⟩
      (.thenExpr
        (.mk ⟨0, 6⟩ (.ident ⟨⟨0, 1⟩, "x"⟩) ⟨1, 2⟩ ⟨2, 4⟩ ⟨4, 5⟩ (.ident ⟨⟨5, 6⟩, "y"⟩)))
      ⟨6, 7⟩ ⟨7, 9⟩ ⟨9, 10⟩ (.ident ⟨⟨10, 11⟩, "z"⟩))

/-- Concrete input of claim C4 (spec scenario S3). -/
def c4src : Src := "config nope = \"x\"".data

/-- All-false output settings, used by the concrete watcher scenarios. -/
def plainSettings : OutputSettings := ⟨false, false, false, false, false, false⟩

/-! ## Helper lemmas -/

theorem porelse_ok {p q : WParser α} {s : Src} {i : Nat} {v : α} {n : Nat}
    (h : porelse p q s i = .ok v n) : p s i = .ok v n ∨ q s i = .ok v n := by
  unfold porelse at h
  cases hp : p s i with
  | ok w m => rw [hp] at h; exact Or.inl h
  | fail c e q' =>
    rw [hp] at h
    cases c with
    | true => exact absurd h (by simp)
    | false => exact Or.inr h

theorem pmap_ok {f : α → β} {p : WParser α} {s : Src} {i : Nat} {v : β} {n : Nat}
    (h : pmap f p s i = .ok v n) : ∃ w, p s i = .ok w n ∧ v = f w := by
  unfold pmap at h
  cases hp : p s i with
  | ok w m =>
    rw [hp] at h
    simp only [PRes.ok.injEq] at h
    obtain ⟨hv, hm⟩ := h
    subst hm
    exact ⟨w, rfl, hv.symm⟩
  | fail c e q' => rw [hp] at h; exact absurd h (by simp)

theorem pcut_ok {p : WParser α} {s : Src} {i : Nat} {v : α} {n : Nat}
    (h : pcut p s i = .ok v n) : p s i = .ok v n := by
  unfold pcut at h
  cases hp : p s i with
  | ok w m => rw [hp] at h; exact h
  | fail c e q' =>
    rw [hp] at h
    cases c <;> simp at h

theorem renderLines_state (r : Renderer) (ls : List OutLine) :
    (renderLines r ls).state = r.state := by
  unfold renderLines; split <;> rfl

theorem renderLinesStderr_state (r : Renderer) (ls : List OutLine) :
    (renderLinesStderr r ls).state = r.state := by
  unfold renderLinesStderr; split <;> rfl

/-! ## Claim theorems -/

/-- **C1.** If, inside a statement list, an item parses with span `sp`, the
following whitespace run is no statement separator, no semicolon follows and
the list terminal does not match, then the `statements_delimited` loop fails
with `Expected::Description("statements must be separated by semicolon or
newlines")` carrying the span of that last successfully parsed statement;
concretely, `let x = a let y = b` fails with that error at the span `[0,9)`
of `let x = a`, and inserting a `;` between the two statements makes parsing
succeed. -/
theorem c1_statement_separator :
    (∀ (α β : Type) (item : WParser (α × Span)) (terminal : WParser β) (s : Src)
        (fuel i : Nat) (lastDecor : ParsedWhitespace) (lastSpan : Span)
        (acc : List (BodyStmtG α)) (v : α) (sp : Span) (n : Nat),
        (terminal s i).isOk = false →
        item s i = .ok (v, sp) n →
        (tokenCharP ';' s (whitespaceParsedAt s n).span.stop).isOk = false →
        (whitespaceParsedAt s n).isStatementSeparator = false →
        (terminal s (whitespaceParsedAt s n).span.stop).isOk = false →
        stmtsLoop item terminal s (fuel + 2) i lastDecor true lastSpan acc =
          .fail false
            (perr (.description "statements must be separated by semicolon or newlines" sp))
            (whitespaceParsedAt s n).span.stop) ∧
    parseWerk c1src =
      .error (.werk ⟨10, 10⟩
        (perr (.description "statements must be separated by semicolon or newlines" ⟨0, 9⟩))) ∧
    sliceStr c1src 0 9 = "let x = a" ∧
    exceptOk (parseWerk c1srcFixed) = true := by
  refine ⟨?_, rfl, rfl, rfl⟩
  intro α β item terminal s fuel i lastDecor lastSpan acc v sp n h1 h2 h3 h4 h5
  show stmtsLoop item terminal s (fuel + 1 + 1) i lastDecor true lastSpan acc = _
  rw [stmtsLoop]
  cases ht : terminal s i with
  | ok w m => rw [ht] at h1; simp [PRes.isOk] at h1
  | fail tc te tp =>
    simp only [Bool.not_true, Bool.false_eq_true, if_false, h2]
    cases hs : tokenCharP ';' s (whitespaceParsedAt s n).span.stop with
    | ok w m => rw [hs] at h3; simp [PRes.isOk] at h3
    | fail sc se sq =>
      rw [stmtsLoop]
      cases ht2 : terminal s (whitespaceParsedAt s n).span.stop with
      | ok w m => rw [ht2] at h5; simp [PRes.isOk] at h5
      | fail tc2 te2 tp2 => simp only [h4, Bool.not_false, if_true]

/-- Witness for C1: the loop lemma instantiated on `let x = a let y = b`
inside the root statement list (the loop fuel `21` used by `parse_werk` on
this input is `19 + 2`). -/
theorem c1_statement_separator_witness :
    stmtsLoop (withTokenSpan (rootStmtP 35)) peekEofP c1src (19 + 2) 0
        (whitespaceParsedAt c1src 0) true ⟨0, 0⟩ [] =
      .fail false
        (perr (.description "statements must be separated by semicolon or newlines" ⟨0, 9⟩))
        (whitespaceParsedAt c1src 9).span.stop :=
  c1_statement_separator.1 RootStmt Unit (withTokenSpan (rootStmtP 35)) peekEofP c1src 19 0
    (whitespaceParsedAt c1src 0) ⟨0, 0⟩ [] c1firstStmt ⟨0, 9⟩ 9 rfl rfl rfl rfl rfl

theorem thenSpineOk_of_not_then {e : Expr} (h : e.isThen = false) :
    thenSpineOk e = true := by
  cases e <;> simp_all [Expr.isThen, thenSpineOk]

/-- `expression_leaf` never returns a `Then` node at the top: every branch
of its `alt` maps into a non-`Then` constructor. -/
theorem grammar_leaf_not_then (fuel : Nat) (s : Src) (i : Nat) (v : Expr) (n : Nat)
    (h : (grammar fuel).leaf s i = .ok v n) : v.isThen = false := by
  cases fuel with
  | zero => simp [grammar, grammarZero] at h
  | succ f =>
    simp only [grammar, grammarStep] at h
    unfold mkLeaf at h
    rcases porelse_ok h with h | h
    · obtain ⟨w, _, rfl⟩ := pmap_ok h; rfl
    rcases porelse_ok h with h | h
    · obtain ⟨w, _, rfl⟩ := pmap_ok h; rfl
    rcases porelse_ok h with h | h
    · obtain ⟨w, _, rfl⟩ := pmap_ok h; rfl
    rcases porelse_ok h with h | h
    · obtain ⟨w, _, rfl⟩ := pmap_ok h; rfl
    rcases porelse_ok h with h | h
    · obtain ⟨w, _, rfl⟩ := pmap_ok h; rfl
    rcases porelse_ok h with h | h
    · obtain ⟨w, _, rfl⟩ := pmap_ok h; rfl
    rcases porelse_ok h with h | h
    · obtain ⟨w, _, rfl⟩ := pmap_ok h; rfl
    rcases porelse_ok h with h | h
    · obtain ⟨w, _, rfl⟩ := pmap_ok h; rfl
    rcases porelse_ok h with h | h
    · obtain ⟨w, _, rfl⟩ := pmap_ok h; rfl
    rcases porelse_ok h with h | h
    · obtain ⟨w, _, rfl⟩ := pmap_ok h; rfl
    rcases porelse_ok h with h | h
    · obtain ⟨w, _, rfl⟩ := pmap_ok h; rfl
    · obtain ⟨w, _, rfl⟩ := pmap_ok h; rfl

/-- The right operand of a successfully parsed chain link comes from the
(cut) leaf parser. -/
theorem chainLinkP_rhs {leaf : WParser Expr} {s : Src} {i : Nat} {l : ChainLink} {n : Nat}
    (h : chainLinkP leaf s i = .ok l n) : ∃ j, leaf s j = .ok l.2.2.2 n := by
  unfold chainLinkP at h
  split at h
  · exact absurd h (by simp)
  · split at h
    · exact absurd h (by simp)
    next heq2 =>
      simp only [PRes.ok.injEq] at h
      obtain ⟨rfl, rfl⟩ := h
      exact ⟨_, pcut_ok heq2⟩

/-- All links collected by the `repeat(0..)` chain loop have non-`Then`
right operands. -/
theorem chainLinks_not_then (leaf : WParser Expr) (s : Src)
    (hleaf : ∀ j v k, leaf s j = .ok v k → v.isThen = false) :
    ∀ (fuel i : Nat) (acc links : List ChainLink) (m : Nat),
      (∀ l ∈ acc, l.2.2.2.isThen = false) →
      chainLinks leaf s fuel i acc = .ok links m →
      ∀ l ∈ links, l.2.2.2.isThen = false := by
  intro fuel
  induction fuel with
  | zero =>
    intro i acc links m _ h
    simp [chainLinks, fuelErr] at h
  | succ f ih =>
    intro i acc links m hacc h
    rw [chainLinks] at h
    cases hl : chainLinkP leaf s i with
    | ok l n =>
      rw [hl] at h
      refine ih n (acc ++ [l]) links m ?_ h
      intro x hx
      rcases List.mem_append.mp hx with hx | hx
      · exact hacc x hx
      · obtain ⟨j, hj⟩ := chainLinkP_rhs hl
        rw [List.mem_singleton] at hx
        subst hx
        exact hleaf j _ n hj
    | fail c e p =>
      rw [hl] at h
      cases c with
      | true => exact absurd h (by simp)
      | false =>
        simp only [PRes.ok.injEq] at h
        obtain ⟨rfl, rfl⟩ := h
        exact hacc

/-- Folding links onto a spine-correct expression keeps the spine correct:
every created `ThenExpr` gets the merged span and a leaf right operand. -/
theorem foldl_mkThen_spine (links : List ChainLink) :
    ∀ e : Expr, thenSpineOk e = true →
      (∀ l ∈ links, l.2.2.2.isThen = false) →
      thenSpineOk (links.foldl mkThen e) = true := by
  induction links with
  | nil => intro e he _; exact he
  | cons l ls ih =>
    intro e he hl
    simp only [List.foldl_cons]
    refine ih (mkThen e l) ?_ (fun x hx => hl x (List.mem_cons_of_mem _ hx))
    have hrhs := hl l (List.mem_cons_self _ _)
    simp [mkThen, thenSpineOk, hrhs, he]

/-- **C2.** Every successfully parsed chained expression is folded
left-associatively into nested `ThenExpr` nodes whose spans are
`merge(lhs.span, rhs.span)` (`thenSpineOk`); in particular
`let x = which "clang" => shell "{x} --version"` parses to a `LetStmt`
whose value is `ThenExpr(Which, Shell)` with span `[8,46) =
merge([8,21), [25,46))`, and `x => y => z` parses to `(x => y) => z`. -/
theorem c2_then_chain :
    (∀ (fuel : Nat) (s : Src) (i : Nat) (e : Expr) (n : Nat),
        expressionChainP fuel s i = .ok e n → thenSpineOk e = true) ∧
    parseWerk c2src = .ok c2root ∧
    (Span.mk 8 46 = c2which.span.merge c2shell.span) ∧
    expressionChainP 30 c2assocSrc 0 = .ok c2assocExpr 11 ∧
    thenSpineOk c2assocExpr = true := by
  refine ⟨?_, rfl, by decide, rfl, by decide⟩
  intro fuel s i e n h
  cases fuel with
  | zero => simp [expressionChainP, grammar, grammarZero, fuelErr] at h
  | succ f =>
    simp only [expressionChainP, grammar, grammarStep] at h
    unfold mkChain at h
    split at h
    · exact absurd h (by simp)
    next leaf0 n0 hl =>
      split at h
      · exact absurd h (by simp)
      next links m hc =>
        simp only [PRes.ok.injEq] at h
        obtain ⟨rfl, rfl⟩ := h
        refine foldl_mkThen_spine links leaf0 ?_ ?_
        · exact thenSpineOk_of_not_then (grammar_leaf_not_then f s i leaf0 n0 hl)
        · exact chainLinks_not_then (grammar f).leaf s
            (fun j v k hj => grammar_leaf_not_then f s j v k hj)
            (s.length + 2) n0 [] links m (by simp) hc

/-- Witness for C2: the spine property instantiated on the parsed
`x => y => z`. -/
theorem c2_then_chain_witness : thenSpineOk c2assocExpr = true :=
  c2_then_chain.1 30 c2assocSrc 0 c2assocExpr 11 rfl

theorem alnum_continue (c : Char) (h : c.isAlphanum = true) :
    isXidContinue c = true := by
  simp [isXidContinue, h]

theorem mk_ne_let_of_length {l : List Char} (h : 4 ≤ l.length) :
    String.mk l ≠ "let" := by
  intro hEq
  have hl : l = "let".data := by
    have := congrArg String.data hEq
    simpa using this
  rw [hl] at h
  exact absurd h (by decide)

/-- `identifier_literal` on an input that is one XID-start character
followed only by XID-continue characters, the whole differing from `let`:
the parser consumes everything and returns the full identifier. -/
theorem identLit_full_match (c : Char) (cs : List Char)
    (h1 : isXidStart c = true)
    (h2 : ∀ x ∈ cs, isXidContinue x = true)
    (h3 : String.mk (c :: cs) ≠ "let") :
    identifierLiteral (c :: cs) 0 = .ok (String.mk (c :: cs)) (c :: cs).length := by
  unfold identifierLiteral
  have hdrop : (c :: cs).drop (0 + 1) = cs := by simp
  have htake : cs.takeWhile isXidContinue = cs := List.takeWhile_eq_self_iff.mpr h2
  have hname : sliceStr (c :: cs) 0 (0 + 1 + cs.length) = String.mk (c :: cs) := by
    unfold sliceStr
    congr 1
    rw [List.drop_zero]
    exact List.take_of_length_le (by simp only [List.length_cons]; omega)
  have hmem : String.mk (c :: cs) ∉ reservedWords := by
    simp only [reservedWords, List.mem_singleton]
    exact h3
  simp only [List.get?_cons_zero, h1, hdrop, htake, hname, if_true]
  simp [hmem, List.length_cons, PRes.ok.injEq]
  omega

/-- **C3 (amended).** The identifier parser rejects exactly the reserved
word `let`: it never returns `let` and it accepts every other keyword as an
identifier; the keyword parser only matches when followed by a
non-alphanumeric character or end of input; and every keyword extended by an
alphanumeric continuation parses as one identifier (keywords are identifier
prefixes).  Unlike the claim's final clause, keywords other than `let` *are*
themselves valid identifiers (see the counterexample). -/
theorem c3_keywords_amended :
    (∀ (s : Src) (i : Nat) (name : String) (n : Nat),
        identifierLiteral s i = .ok name n → name ≠ "let") ∧
    (∀ kw ∈ werkKeywords, kw ≠ "let" →
        identifierLiteral kw.data 0 = .ok kw kw.length) ∧
    identifierLiteral "let".data 0 = .fail false (perr (.internal "Verify")) 0 ∧
    (∀ (kw : String) (s : Src) (i : Nat) (sp : Span) (n : Nat),
        keywordP kw s i = .ok sp n →
        s.get? n = none ∨ ∀ c, s.get? n = some c → c.isAlphanum = false) ∧
    (∀ kw ∈ werkKeywords, ∀ cont : List Char, cont ≠ [] →
        (∀ x ∈ cont, x.isAlphanum = true) →
        identifierLiteral (kw.data ++ cont) 0 =
          .ok (String.mk (kw.data ++ cont)) (kw.data ++ cont).length) := by
  refine ⟨?_, ?_, rfl, ?_, ?_⟩
  · intro s i name n h
    unfold identifierLiteral at h
    split at h
    · split at h
      · split at h
        · exact absurd h (by simp)
        next hcontains =>
          simp only [PRes.ok.injEq] at h
          obtain ⟨rfl, rfl⟩ := h
          intro hEq
          rw [hEq] at hcontains
          exact hcontains (by decide)
      · exact absurd h (by simp)
    · exact absurd h (by simp)
  · intro kw hkw hne
    fin_cases hkw
    · exact absurd rfl hne
    all_goals rfl
  · intro kw s i sp n h
    unfold keywordP at h
    split at h
    · split at h
      next hnone =>
        simp only [PRes.ok.injEq] at h
        obtain ⟨rfl, rfl⟩ := h
        exact Or.inl hnone
      next c hsome =>
        split at h
        · exact absurd h (by simp)
        next halnum =>
          simp only [PRes.ok.injEq] at h
          obtain ⟨rfl, rfl⟩ := h
          refine Or.inr fun c' hc' => ?_
          rw [hsome] at hc'
          cases hc'
          simpa using halnum
    · exact absurd h (by simp)
  · intro kw hkw cont hne hcont
    have hc1 : 1 ≤ cont.length := List.length_pos.mpr hne
    fin_cases hkw
    all_goals
      refine identLit_full_match _ _ (by decide) ?_ ?_
      · intro x hx
        rcases List.mem_append.mp hx with hx | hx
        · fin_cases hx <;> decide
        · exact alnum_continue x (hcont x hx)
      · apply mk_ne_let_of_length
        simp only [List.append_eq, List.length_cons, List.length_append]
        omega

/-- Witness for C3: the general parts instantiated at `task` and at the
continuation `x` (so `taskx` parses as one identifier). -/
theorem c3_keywords_amended_witness :
    identifierLiteral "task".data 0 ≠ .ok "let" 4 ∧
    identifierLiteral ("task".data ++ ['x']) 0 =
      .ok (String.mk ("task".data ++ ['x'])) ("task".data ++ ['x']).length := by
  constructor
  · intro h
    exact c3_keywords_amended.1 "task".data 0 "let" 4 h rfl
  · exact c3_keywords_amended.2.2.2.2 "task" (by decide) ['x'] (by decide) (by decide)

/-- Counterexample for C3: `task` is a keyword, yet the identifier parser
accepts it (refuting "keywords are never valid identifiers"). -/
theorem c3_keywords_counterexample :
    werkKeywords.contains "task" = true ∧
    identifierLiteral "task".data 0 = .ok "task" 4 :=
  ⟨rfl, rfl⟩

/-- **C4 (amended).** Parsing `config nope = "x"` fails with the cut error
labelled "config key, one of `out-dir`, `edition`, `print-commands`, or
`default`", but the reported span is the empty span at offset 17 — the end
of the fully consumed config statement, where the parser's input rests when
the key validation fails — not the span of `nope`. -/
theorem c4_config_key_amended :
    parseWerk c4src =
      .error (.werk ⟨17, 17⟩
        (perr (.expected
          "config key, one of `out-dir`, `edition`, `print-commands`, or `default`"))) :=
  rfl

/-- Counterexample for C4: the key `nope` occupies `[7, 11)` of the input,
and the reported span `[17, 17)` does not cover it. -/
theorem c4_config_key_counterexample :
    (parseWerk c4src).map (fun _ => Span.mk 0 0) =
      .error (.werk ⟨17, 17⟩
        (perr (.expected
          "config key, one of `out-dir`, `edition`, `print-commands`, or `default`"))) ∧
    sliceStr c4src 7 11 = "nope" ∧
    Span.covers ⟨17, 17⟩ ⟨7, 11⟩ = false :=
  ⟨rfl, rfl, rfl⟩

theorem stepEvent_counters (r : Renderer) (ev : WEvent) (r' : Renderer)
    (h : stepEvent r ev = some r') :
    r'.state.numTasks = r.state.numTasks + willBuildCount [ev] ∧
    r'.state.numCompletedTasks = r.state.numCompletedTasks + didBuildCount [ev] := by
  cases ev with
  | willBuild id numSteps outdatedness =>
    simp only [stepEvent, Option.some.injEq] at h
    subst h
    simp [willBuildR, renderLines_state, willBuildCount, didBuildCount]
  | didBuild id result =>
    simp only [stepEvent, Option.some.injEq] at h
    subst h
    simp [didBuildR, renderLines_state, willBuildCount, didBuildCount]
  | willExecute id cmd step numSteps =>
    simp only [stepEvent] at h
    unfold willExecuteR at h
    split at h
    · exact absurd h (by simp)
    · split at h
      · simp only [Option.some.injEq] at h
        subst h
        simp [willExecUpdate, renderLines_state, willBuildCount, didBuildCount]
      · split at h
        · simp only [Option.some.injEq] at h
          subst h
          simp [willExecUpdate, renderLines_state, willBuildCount, didBuildCount]
        · simp only [Option.some.injEq] at h
          subst h
          simp [willExecUpdate, willBuildCount, didBuildCount]
  | didExecute id cmd result step numSteps =>
    simp only [stepEvent, Option.some.injEq] at h
    subst h
    unfold didExecuteR
    cases result with
    | exit success =>
      cases success <;> simp [renderLines_state, willBuildCount, didBuildCount]
    | ioErr msg => simp [renderLines_state, willBuildCount, didBuildCount]
  | childStdoutLine id cmd bytes capture =>
    simp only [stepEvent] at h
    cases capture with
    | true =>
      simp only [if_true, Option.some.injEq] at h
      subst h
      simp [willBuildCount, didBuildCount]
    | false =>
      simp only [Bool.false_eq_true, if_false, Option.some.injEq] at h
      subst h
      simp [childStdoutR, renderLines_state, willBuildCount, didBuildCount]
  | childStderrLine id cmd bytes =>
    simp only [stepEvent, Option.some.injEq] at h
    subst h
    simp [childStderrR, renderLinesStderr_state, willBuildCount, didBuildCount]
  | message id msg =>
    simp only [stepEvent, Option.some.injEq] at h
    subst h
    simp [messageR, renderLines_state, willBuildCount, didBuildCount]
  | warning id msg =>
    simp only [stepEvent, Option.some.injEq] at h
    subst h
    simp [warningR, renderLines_state, willBuildCount, didBuildCount]
  | writeRawStdout bytes =>
    simp only [stepEvent, Option.some.injEq] at h
    subst h
    simp [writeRawStdoutR, willBuildCount, didBuildCount]
  | writeRawStderr bytes =>
    simp only [stepEvent, Option.some.injEq] at h
    subst h
    simp [writeRawStderrR, willBuildCount, didBuildCount]

theorem willBuildCount_cons (ev : WEvent) (evs : List WEvent) :
    willBuildCount (ev :: evs) = willBuildCount [ev] + willBuildCount evs := by
  cases ev <;> (simp [willBuildCount]; try omega)

theorem didBuildCount_cons (ev : WEvent) (evs : List WEvent) :
    didBuildCount (ev :: evs) = didBuildCount [ev] + didBuildCount evs := by
  cases ev <;> (simp [didBuildCount]; try omega)

/-- Along any surviving run, the two counters are exactly the event counts
added to their initial values. -/
theorem runEvents_counters (evs : List WEvent) :
    ∀ (r r' : Renderer), runEvents r evs = some r' →
      r'.state.numTasks = r.state.numTasks + willBuildCount evs ∧
      r'.state.numCompletedTasks = r.state.numCompletedTasks + didBuildCount evs := by
  induction evs with
  | nil =>
    intro r r' h
    simp only [runEvents, Option.some.injEq] at h
    subst h
    simp [willBuildCount, didBuildCount]
  | cons ev evs ih =>
    intro r r' h
    rw [runEvents] at h
    cases hstep : stepEvent r ev with
    | none => rw [hstep] at h; exact absurd h (by simp)
    | some r1 =>
      rw [hstep] at h
      obtain ⟨h1, h2⟩ := stepEvent_counters r ev r1 hstep
      obtain ⟨h3, h4⟩ := ih r1 r' h
      rw [willBuildCount_cons, didBuildCount_cons]
      constructor <;> omega

/-- **C5 (amended).** Both counters are monotonically nondecreasing across
every event, for arbitrary event sequences; and starting from the initial
watcher state, `num_completed_tasks ≤ num_tasks` holds at every observation
point provided every prefix of the event sequence contains at least as many
`will_build` as `did_build` events (e.g. when every `did_build` is preceded
by its `will_build`).  Without that proviso the inequality can fail, because
`did_build` increments `num_completed_tasks` unconditionally (see the
counterexample). -/
theorem c5_counters_amended :
    (∀ (r : Renderer) (ev : WEvent) (r' : Renderer), stepEvent r ev = some r' →
        r.state.numTasks ≤ r'.state.numTasks ∧
        r.state.numCompletedTasks ≤ r'.state.numCompletedTasks) ∧
    (∀ (linear : Bool) (settings : OutputSettings) (evs : List WEvent),
        (∀ n, didBuildCount (evs.take n) ≤ willBuildCount (evs.take n)) →
        ∀ (n : Nat) (r' : Renderer),
          runEvents (initialRenderer linear settings) (evs.take n) = some r' →
          r'.state.numCompletedTasks ≤ r'.state.numTasks) := by
  constructor
  · intro r ev r' h
    obtain ⟨h1, h2⟩ := stepEvent_counters r ev r' h
    constructor
    · rw [h1]; exact Nat.le_add_right _ _
    · rw [h2]; exact Nat.le_add_right _ _
  · intro linear settings evs hbal n r' hrun
    obtain ⟨h1, h2⟩ := runEvents_counters (evs.take n) _ r' hrun
    have : r'.state.numTasks = willBuildCount (evs.take n) := by
      simpa [initialRenderer] using h1
    rw [this]
    have : r'.state.numCompletedTasks = didBuildCount (evs.take n) := by
      simpa [initialRenderer] using h2
    rw [this]
    exact hbal n

/-- Witness for C5: a balanced two-event run (`will_build` then `did_build`
of the same task) keeps `completed ≤ total` at every prefix. -/
theorem c5_counters_amended_witness :
    ∀ (n : Nat) (r' : Renderer),
      runEvents (initialRenderer true plainSettings)
        (([WEvent.willBuild (.task "t") 1 ⟨["cause"]⟩,
           WEvent.didBuild (.task "t") (.ok (.complete (.task "t") ⟨["cause"]⟩))]).take n) =
        some r' →
      r'.state.numCompletedTasks ≤ r'.state.numTasks :=
  c5_counters_amended.2 true plainSettings
    [WEvent.willBuild (.task "t") 1 ⟨["cause"]⟩,
     WEvent.didBuild (.task "t") (.ok (.complete (.task "t") ⟨["cause"]⟩))]
    (by intro n
        match n with
        | 0 => exact Nat.le_refl 0
        | 1 => exact Nat.zero_le _
        | (k + 2) =>
          rw [List.take_of_length_le (by simp only [List.length_cons, List.length_nil]; omega)]
          exact Nat.le_refl 1)

/-- Counterexample for C5: a lone `did_build` (no preceding `will_build`)
drives `num_completed_tasks` to `1` while `num_tasks` stays `0`, violating
`num_completed_tasks ≤ num_tasks`. -/
theorem c5_counters_counterexample :
    (runEvents (initialRenderer true plainSettings)
        [WEvent.didBuild (.task "t") (.ok (.complete (.task "t") ⟨["cause"]⟩))]).map
      (fun r => (r.state.numCompletedTasks, r.state.numTasks)) = some (1, 0) ∧
    ¬(1 ≤ 0) :=
  ⟨rfl, by decide⟩

theorem imShiftRemove_not_mem (m : List (TaskId × Nat × Nat)) (k : TaskId)
    (h : (imKeys m).contains k = false) : imShiftRemove m k = m := by
  have hmem : k ∉ imKeys m := by
    intro hk
    simp [hk] at h
  unfold imShiftRemove
  rw [List.filter_eq_self]
  intro e he
  simp only [ne_eq, decide_eq_true_eq]
  intro hek
  exact hmem (hek ▸ List.mem_map_of_mem Prod.fst he)

/-- **C6 (amended).** `did_build` for a task id that is not in
`current_tasks` is tolerated (no panic) and leaves `current_tasks` and
`num_tasks` unchanged — but it is not a no-op: `num_completed_tasks` is
still incremented, and the result line is still emitted (see the
counterexample). -/
theorem c6_did_build_unknown_amended :
    ∀ (r : Renderer) (id : TaskId) (result : BuildResult),
      (imKeys r.state.currentTasks).contains id = false →
      (didBuildR r id result).state.currentTasks = r.state.currentTasks ∧
      (didBuildR r id result).state.numTasks = r.state.numTasks ∧
      (didBuildR r id result).state.numCompletedTasks = r.state.numCompletedTasks + 1 := by
  intro r id result h
  refine ⟨?_, ?_, ?_⟩ <;>
    simp [didBuildR, renderLines_state, imShiftRemove_not_mem _ _ h]

/-- Witness for C6: the amended statement on the initial (empty) watcher. -/
theorem c6_did_build_unknown_witness :
    (didBuildR (initialRenderer true plainSettings) (.task "t")
        (.ok .existsStatus)).state.currentTasks =
      (initialRenderer true plainSettings).state.currentTasks ∧
    (didBuildR (initialRenderer true plainSettings) (.task "t")
        (.ok .existsStatus)).state.numTasks =
      (initialRenderer true plainSettings).state.numTasks ∧
    (didBuildR (initialRenderer true plainSettings) (.task "t")
        (.ok .existsStatus)).state.numCompletedTasks =
      (initialRenderer true plainSettings).state.numCompletedTasks + 1 :=
  c6_did_build_unknown_amended (initialRenderer true plainSettings) (.task "t")
    (.ok .existsStatus) rfl

/-- Counterexample for C6: on the empty watcher, `did_build` of an unknown
task with an outdated-success result increments `num_completed_tasks` and
emits the `[ ok ]` line — the state changes and output is produced, so it is
no no-op. -/
theorem c6_did_build_unknown_counterexample :
    (didBuildR (initialRenderer true plainSettings) (.task "t")
        (.ok (.complete (.task "t") ⟨["modified"]⟩))).state.numCompletedTasks = 1 ∧
    (initialRenderer true plainSettings).state.numCompletedTasks = 0 ∧
    (didBuildR (initialRenderer true plainSettings) (.task "t")
        (.ok (.complete (.task "t") ⟨["modified"]⟩))).outStdout =
      [.okLine (.task "t") false] ∧
    (initialRenderer true plainSettings).outStdout = [] :=
  ⟨rfl, rfl, rfl, rfl⟩

/-- **C7 (amended).** With `ColorChoice::Auto`, when stdout is not a
terminal, "clicolor force" is not set *and the "term supports ANSI" probe is
negative*, the detector chooses `Strip`.  The claim's "regardless of the
probe" is wrong: a positive `term_supports_ansi_color()` probe yields `Ansi`
even without a terminal (see the counterexample). -/
theorem c7_detect_amended :
    ∀ env : DetectEnv, env.isTerminal = false → env.clicolorForce = false →
      env.termSupportsAnsiColor = false → detect env .auto = .strip := by
  intro env h1 h2 h3
  rcases env with ⟨nc, cf, it, eac, ts, w⟩
  dsimp only at h1 h2 h3
  subst h1; subst h2; subst h3
  cases nc <;> simp [detect]

/-- Witness for C7: a concrete non-terminal, non-forced, probe-negative
environment detects `Strip`. -/
theorem c7_detect_witness :
    detect ⟨false, false, false, none, false, false⟩ .auto = .strip :=
  c7_detect_amended ⟨false, false, false, none, false, false⟩ rfl rfl rfl

/-- Counterexample for C7: stdout is no terminal and clicolor-force is
unset, yet a positive terminal-type probe makes the detector choose `Ansi`,
not `Strip`. -/
theorem c7_detect_counterexample :
    detect ⟨false, false, false, none, true, false⟩ .auto = .ansi ∧
    AutoStreamKind.ansi ≠ .strip :=
  ⟨rfl, by decide⟩

/-- **C8 (amended).** In the `StdioLock` watcher, `message`/`warning` emit a
cyan `[info]` / yellow `[warn]` prefixed line, replaced by the bracketed
task name when a task id is supplied.  In the ANSI renderer, however, the
prefix is bright-green `[info]` / bright-yellow `[warn]` and the supplied
task id is ignored (see the counterexample). -/
theorem c8_message_prefixes_amended :
    (∀ (r : Renderer) (tid : Option TaskId) (msg : String),
        messageR r tid msg = messageR r none msg ∧
        warningR r tid msg = warningR r none msg) ∧
    (∀ (r : Renderer) (tid : Option TaskId) (msg : String), r.linear = true →
        (messageR r tid msg).outStdout =
          r.outStdout ++ [.prefixLine .brightGreen "[info]" msg] ∧
        (warningR r tid msg).outStdout =
          r.outStdout ++ [.prefixLine .brightYellow "[warn]" msg]) ∧
    (∀ (st : StdioState) (id : TaskId) (msg : String), st.kind = .strip →
        (stdioMessage st (some id) msg).output =
          st.output ++ [.prefixLine .cyan ("[" ++ id.asString ++ "]") msg] ∧
        (stdioWarning st (some id) msg).output =
          st.output ++ [.prefixLine .yellow ("[" ++ id.asString ++ "]") msg]) ∧
    (∀ (st : StdioState) (msg : String), st.kind = .strip →
        (stdioMessage st none msg).output =
          st.output ++ [.prefixLine .cyan "[info]" msg] ∧
        (stdioWarning st none msg).output =
          st.output ++ [.prefixLine .yellow "[warn]" msg]) := by
  refine ⟨fun r tid msg => ⟨rfl, rfl⟩, ?_, ?_, ?_⟩
  · intro r tid msg h
    constructor <;> simp [messageR, warningR, renderLines, h]
  · intro st id msg h
    constructor <;>
      simp [stdioMessage, stdioWarning, stdioClearLines, stdioRenderLines, h,
        AutoStreamKind.advancedRendering]
  · intro st msg h
    constructor <;>
      simp [stdioMessage, stdioWarning, stdioClearLines, stdioRenderLines, h,
        AutoStreamKind.advancedRendering]

/-- Witness for C8: the amended statement on concrete states. -/
theorem c8_message_prefixes_witness :
    (messageR (initialRenderer true plainSettings) (some (.task "t")) "m").outStdout =
      [.prefixLine .brightGreen "[info]" "m"] ∧
    (stdioMessage ⟨.strip, plainSettings, [], 0, 0, []⟩ (some (.task "t")) "m").output =
      [.prefixLine .cyan "[t]" "m"] := by
  constructor
  · have := (c8_message_prefixes_amended.2.1 (initialRenderer true plainSettings)
      (some (.task "t")) "m" rfl).1
    simpa [initialRenderer] using this
  · have := (c8_message_prefixes_amended.2.2.1 ⟨.strip, plainSettings, [], 0, 0, []⟩
      (.task "t") "m" rfl).1
    simpa [TaskId.asString] using this

/-- Counterexample for C8: the ANSI renderer prefixes a task-attributed
message with bright-green `[info]`, not cyan and not the bracketed task
name. -/
theorem c8_message_prefixes_counterexample :
    (messageR (initialRenderer true plainSettings) (some (.task "t")) "hello").outStdout =
      [.prefixLine .brightGreen "[info]" "hello"] ∧
    Color.brightGreen ≠ Color.cyan ∧
    ("[info]" : String) ≠ "[t]" :=
  ⟨rfl, by decide, by decide⟩

/-- **C9 (amended).** `write_raw_stdout`/`write_raw_stderr` pass the bytes
through to the corresponding stream unchanged, but do *not* take part in the
`needs_clear` protocol: no erase sequence is written first and `needs_clear`
is left untouched, in both linear and interactive mode (see the
counterexample). -/
theorem c9_write_raw_amended :
    ∀ (r : Renderer) (bytes : List Nat),
      writeRawStdoutR r bytes = { r with outStdout := r.outStdout ++ [.raw bytes] } ∧
      writeRawStderrR r bytes = { r with outStderr := r.outStderr ++ [.raw bytes] } ∧
      (writeRawStdoutR r bytes).needsClear = r.needsClear ∧
      (writeRawStderrR r bytes).needsClear = r.needsClear :=
  fun _ _ => ⟨rfl, rfl, rfl, rfl⟩

/-- Counterexample for C9: in interactive mode with a pending status line
(`needs_clear = true`), `write_raw_stdout` emits only the raw bytes — no
`ESC[K` erase precedes them, unlike the `render_lines` protocol — and the
pending flag remains set. -/
theorem c9_write_raw_counterexample :
    (writeRawStdoutR { initialRenderer false plainSettings with needsClear := true }
        [65]).outStdout = [.raw [65]] ∧
    (writeRawStdoutR { initialRenderer false plainSettings with needsClear := true }
        [65]).needsClear = true ∧
    [OutLine.raw [65]] ≠ [OutLine.eraseLine, OutLine.raw [65]] :=
  ⟨rfl, rfl, by decide⟩

theorem imLookup_insert (m : List (TaskId × Nat × Nat)) (k : TaskId) (v : Nat × Nat) :
    imLookup (imInsert m k v) k = some v := by
  induction m with
  | nil => simp [imInsert, imLookup, List.find?]
  | cons e es ih =>
    by_cases he : e.1 = k
    · simp [imInsert, imLookup, he, List.find?]
    · simp only [imInsert, he, if_false]
      unfold imLookup at ih ⊢
      simp [List.find?, he, ih]

/-- **C10 (amended).** `will_execute` panics ("task not registered") exactly
when the task id is not currently in `current_tasks`; in particular, right
after `will_build` of the same id the panic branch is unreachable.  The
claim's blanket precondition "will_build preceded it" is insufficient: an
intervening `did_build` removes the task again, and `will_execute` then
panics even though `will_build` came first (see the counterexample). -/
theorem c10_will_execute_amended :
    (∀ (r : Renderer) (id : TaskId) (cmd : String) (step numSteps : Nat),
        willExecuteR r id cmd step numSteps = none ↔
          imLookup r.state.currentTasks id = none) ∧
    (∀ (r : Renderer) (id : TaskId) (numSteps : Nat) (o : Outdatedness)
        (cmd : String) (step n : Nat),
        willExecuteR (willBuildR r id numSteps o) id cmd step n ≠ none) := by
  have hiff : ∀ (r : Renderer) (id : TaskId) (cmd : String) (step numSteps : Nat),
      willExecuteR r id cmd step numSteps = none ↔
        imLookup r.state.currentTasks id = none := by
    intro r id cmd step numSteps
    unfold willExecuteR
    cases hl : imLookup r.state.currentTasks id with
    | none => simp
    | some v =>
      simp only [iff_false, ne_eq]
      constructor
      · intro hcontra
        split at hcontra
        · exact absurd hcontra (by simp)
        · split at hcontra <;> exact absurd hcontra (by simp)
      · intro hcontra
        exact absurd hcontra (by simp)
  refine ⟨hiff, ?_⟩
  intro r id numSteps o cmd step n hnone
  rw [hiff] at hnone
  have hstate : (willBuildR r id numSteps o).state.currentTasks =
      imInsert r.state.currentTasks id (0, numSteps) := by
    simp [willBuildR, renderLines_state]
  rw [hstate, imLookup_insert] at hnone
  exact absurd hnone (by simp)

/-- Counterexample for C10: `will_build t; did_build t; will_execute t`
panics (the run aborts), although `will_build` preceded the
`will_execute`. -/
theorem c10_will_execute_counterexample :
    runEvents (initialRenderer true plainSettings)
      [WEvent.willBuild (.task "t") 1 ⟨[]⟩,
       WEvent.didBuild (.task "t") (.ok (.complete (.task "t") ⟨[]⟩)),
       WEvent.willExecute (.task "t") "cc" 0 1] = none :=
  rfl

end Werk
